import Mathlib

/-!
Verification of the report-parsing and normalization subsystem of the
tt-github-actions repository (`.github/actions/collect_data`), via a shallow
embedding of the Python sources into Lean.

Conventions of the embedding:
* machine timestamps and durations are integers (microseconds; `datetime` plus
  `timedelta` arithmetic is exact at microsecond resolution);
* Python exceptions are `Except PyErr`;
* XML documents (the output of `xml.etree.ElementTree.parse` and, equivalently
  for well-formed input, `xmltodict.parse`) are `XmlElem` trees; a file is a
  path together with the outcome of parsing its content, so unreadable or
  malformed files are files whose parse outcome is an error;
* timestamp strings are abstracted by decimal numerals: the source accepts a
  fixed set of ISO-8601 shapes and rejects everything else, and no claim
  depends on the concrete accepted shapes, only on parse success or failure
  and on the order and arithmetic of the denoted instants.
-/

/-- Python exception values (only the distinctions the sources observe). -/
inductive PyErr where
  | xmlParseError
  | keyError (k : String)
  | indexError
  | typeError
  | valueError (msg : String)
  | importError
  | validationError
  deriving Repr, DecidableEq

/-- An XML element: tag, attribute list, text content, children.
Attribute order follows document order; lookups take the first binding. -/
inductive XmlElem where
  | mk (tag : String) (attrib : List (String × String)) (text : Option String)
      (children : List XmlElem)

/-- Tag of an element. -/
def XmlElem.tag : XmlElem → String
  | .mk t _ _ _ => t

/-- Attribute list of an element. -/
def XmlElem.attrib : XmlElem → List (String × String)
  | .mk _ a _ _ => a

/-- Text content of an element (the `#text` key of the xmltodict view). -/
def XmlElem.text : XmlElem → Option String
  | .mk _ _ tx _ => tx

/-- Children of an element. -/
def XmlElem.children : XmlElem → List XmlElem
  | .mk _ _ _ c => c

/-- Attribute lookup, `elem.attrib.get(k)` / `elem.attrib[k]` on the Python side. -/
def lookupAttr (e : XmlElem) (k : String) : Option String :=
  e.attrib.lookup k

/-- All children carrying a given tag, in document order. -/
def childrenWithTag (e : XmlElem) (t : String) : List XmlElem :=
  e.children.filter (fun c => c.tag == t)

/-- Whether the element has a child with the given tag. -/
def hasChildTag (e : XmlElem) (t : String) : Bool :=
  e.children.any (fun c => c.tag == t)

/-- A report file: its path and the outcome of parsing its content as XML.
The XML library is an external collaborator; its verdict on the file's bytes
(root element, or a raised parse error on unreadable/malformed content) is
part of the input model. -/
structure PyFile where
  path : String
  etparse : Except PyErr XmlElem

/-!
### Python string operations

Implemented structurally over the character list, so that every concrete
input evaluates inside the kernel (the core library's string functions are
compiled by well-founded recursion and do not reduce). -/

/-- Whether `pat` is a prefix of `s`, on character lists. -/
def listIsPre : List Char → List Char → Bool
  | [], _ => true
  | _ :: _, [] => false
  | a :: as, b :: bs => a == b && listIsPre as bs

/-- Whether `pat` occurs as a contiguous substring, on character lists. -/
def listContainsSub (pat : List Char) : List Char → Bool
  | [] => pat.isEmpty
  | c :: rest => listIsPre pat (c :: rest) || listContainsSub pat rest

/-- Substring test, Python `pat in s`. -/
def strContains (s pat : String) : Bool :=
  listContainsSub pat.data s.data

/-- Python `s.startswith(pat)`. -/
def strStartsWith (s pat : String) : Bool :=
  listIsPre pat.data s.data

/-- Python `s.endswith(pat)` for a string pattern. -/
def strEndsWith (s pat : String) : Bool :=
  listIsPre pat.data.reverse s.data.reverse

/-- The digits of a decimal numeral, accumulated; `none` on a non-digit or
an empty numeral. -/
def digitsVal (acc : Nat) : List Char → Option Nat
  | [] => some acc
  | c :: rest =>
    if c.isDigit then digitsVal (acc * 10 + (c.toNat - 48)) rest else none

/-- Python `int(s)` shape on decimal numerals (with optional sign): `some`
exactly on well-formed decimal integers. -/
def strToInt (s : String) : Option Int :=
  match s.data with
  | [] => none
  | c :: rest =>
    if c == '-' then
      match rest with
      | [] => none
      | _ => (digitsVal 0 rest).map (fun n => -(n : Int))
    else (digitsVal 0 (c :: rest)).map (fun n => (n : Int))

/-- Characters before the first occurrence of `ch` — Python
`s.split(ch)[0]`. -/
def takeUntilChar (ch : Char) : List Char → List Char
  | [] => []
  | c :: rest => if c == ch then [] else c :: takeUntilChar ch rest

/-- Python `s.split(ch)[0]` for a one-character separator. -/
def strTakeUntil (s : String) (ch : Char) : String :=
  ⟨takeUntilChar ch s.data⟩

/-- Characters after the first occurrence of `ch` — Python
`s.split(ch, 1)[1]` when `ch` occurs. -/
def dropThroughChar (ch : Char) : List Char → List Char
  | [] => []
  | c :: rest => if c == ch then rest else dropThroughChar ch rest

/-- Python `s.split(ch, 1)[1]` for a one-character separator that occurs. -/
def strAfterFirst (s : String) (ch : Char) : String :=
  ⟨dropThroughChar ch s.data⟩

/-- Split on every occurrence of a one-character separator — Python
`s.split(ch)`. -/
def segmentsByChar (ch : Char) : List Char → List (List Char)
  | [] => [[]]
  | c :: rest =>
    let segs := segmentsByChar ch rest
    if c == ch then [] :: segs
    else
      match segs with
      | s :: ss => (c :: s) :: ss
      | [] => [[c]]

/-- Python `s.split(ch)` for a one-character separator. -/
def strSplitChar (s : String) (ch : Char) : List String :=
  (segmentsByChar ch s.data).map (fun cs => ⟨cs⟩)

/-- Single-character replacement — Python `s.replace(a, b)` where both
arguments are one character long. -/
def strReplaceChar (s : String) (a b : Char) : String :=
  ⟨s.data.map (fun c => if c == a then b else c)⟩

/-- Python `s.lower()`. -/
def strToLower (s : String) : String :=
  ⟨s.data.map Char.toLower⟩

/-- Python `s[n:]` on byte-plain identifiers. -/
def strDrop (s : String) (n : Nat) : String :=
  ⟨s.data.drop n⟩

/-- Python `os.path.basename`. -/
def strBasename (s : String) : String :=
  (strSplitChar s (Char.ofNat 47)).getLastD ""

/-- Shallow model of `utils.parse_timestamp`: the source tries four ISO-8601
formats via `datetime.strptime` and returns `None` when none matches.  We
abstract datetime strings by decimal numerals denoting microsecond instants:
a string parses exactly when it is such a numeral. -/
def parse_timestamp (s : String) : Option Int :=
  strToInt s

/-- Conversion of a timestamp string that the generic xUnit parser feeds to
`datetime.fromisoformat`, which raises `ValueError` on anything malformed.
Same decimal-numeral abstraction as `parse_timestamp`. -/
def xstrToTime (s : String) : Except PyErr Int :=
  match strToInt s with
  | some n => .ok n
  | none => .error (.valueError s)

/-- Conversion of a duration string via Python `float`, which raises
`ValueError` on malformed input; durations are microsecond integers here. -/
def xstrToDur (s : String) : Except PyErr Int :=
  match strToInt s with
  | some n => .ok n
  | none => .error (.valueError s)

/-!
### shared.py — the process-wide failure flag

The module body is

  report_failure = False

  def failure_happened():
      report_failure = True

  def is_failure():
      return report_failure

We embed the CPython scoping rule directly: a name that is assigned anywhere
in a function body and not declared `global` in that function is a local of
that function, bound in the call's local namespace, which is discarded when
the call returns.
-/

/-- A namespace: names bound to boolean values (the only values shared.py holds). -/
abbrev PyNs := List (String × Bool)

/-- Binding a name in a namespace (Python assignment). -/
def bindName (ns : PyNs) (name : String) (v : Bool) : PyNs :=
  (name, v) :: ns

/-- Reading a name, innermost binding first; unbound names read as `false`
only to keep the function total (never exercised: `report_failure` is bound
by the module body before any call). -/
def readName (ns : PyNs) (name : String) : Bool :=
  (ns.lookup name).getD false

/-- The module globals of shared.py right after the module body ran:
`report_failure = False`. -/
def sharedInit : PyNs :=
  bindName [] "report_failure" false

/-- Shallow embedding of `shared.failure_happened`.  Its body is the single
statement `report_failure = True`; the function contains no `global`
declaration, so CPython compiles `report_failure` as a local of the call.
The assignment lands in the call's local namespace, which is discarded on
return, and the module globals come back unchanged. -/
def failure_happened (globals : PyNs) : PyNs :=
  let locals : PyNs := []
  let locals := bindName locals "report_failure" true
  let _ := locals
  globals

/-- Shallow embedding of `shared.is_failure`: the body only reads
`report_failure` and assigns nothing, so the name resolves to the module
global. -/
def is_failure (globals : PyNs) : Bool :=
  readName globals "report_failure"

/-- What the spec says `failure_happened` does (the intended mark-failure
operation): set the module-level flag, so that `is_failure` reads it back as
true at the end of the batch. -/
def failure_happened_spec (globals : PyNs) : PyNs :=
  bindName globals "report_failure" true

/-- A batch in which `n` schema-validation failures occurred: the mark-failure
operation ran `n` times on the initial module state. -/
def batchFlagAfter (n : Nat) : PyNs :=
  Nat.rec sharedInit (fun _ g => failure_happened g) n

/-- C1: the code as written.  Even after a schema-validation failure has
invoked the mark-failure operation, the flag read at the end of the batch is
still false, while the intended operation described by the spec would have
set it.  Closed evaluation at the failing input (one failure in the batch). -/
theorem c1_flag_never_set :
    is_failure (failure_happened sharedInit) = false
      ∧ is_failure (batchFlagAfter 1) = false
      ∧ is_failure (failure_happened_spec sharedInit) = true
      ∧ is_failure sharedInit = false := by
  decide

/-!
### parsers/junit_xml_utils — helpers shared by the pytest-flavored parsers

The module `parsers/junit_xml_utils.py` is not among the sources; only its
callers are.  Each helper below is modelled from the spec's description of
the behavior its callers rely on.
-/

/-- Modelled from the spec: `junit_xml_utils.is_pytest_junit_xml` is missing
from the sources; the spec says the probe "detects pytest-flavored JUnit XML
(root tag plus pytest-specific markers)".  We model it as: the root tag is
`testsuites` and some testsuite child carries the pytest suite name marker. -/
def is_pytest_junit_xml (root : XmlElem) : Bool :=
  root.tag == "testsuites"
    && root.children.any (fun ts => lookupAttr ts "name" == some "pytest")

/-- Modelled from the spec: success/failure/error/skip derive "from the
presence of `<failure>`/`<error>`/`<skipped>` child elements".  Skip probe. -/
def get_pytest_testcase_is_skipped (tc : XmlElem) : Bool :=
  hasChildTag tc "skipped"

/-- Modelled from the spec: failure probe, presence of a `<failure>` child. -/
def get_pytest_testcase_is_failed (tc : XmlElem) : Bool :=
  hasChildTag tc "failure"

/-- Modelled from the spec: error probe, presence of an `<error>` child. -/
def get_pytest_testcase_is_error (tc : XmlElem) : Bool :=
  hasChildTag tc "error"

/-- Modelled from the spec: the failure message of a testcase, read from the
`message` attribute of its `<failure>` child. -/
def get_pytest_failure_message (tc : XmlElem) : Option String :=
  (childrenWithTag tc "failure").head?.bind (fun c => lookupAttr c "message")

/-- Modelled from the spec: the error message, from the `<error>` child. -/
def get_pytest_error_message (tc : XmlElem) : Option String :=
  (childrenWithTag tc "error").head?.bind (fun c => lookupAttr c "message")

/-- Modelled from the spec: the skip message, from the `<skipped>` child. -/
def get_pytest_skipped_message (tc : XmlElem) : Option String :=
  (childrenWithTag tc "skipped").head?.bind (fun c => lookupAttr c "message")

/-- Modelled from the spec: the custom properties of a testcase, the
`name`/`value` pairs of the `<property>` children of its `<properties>`
child, as a dictionary (first binding wins on lookup). -/
def get_pytest_testcase_properties (tc : XmlElem) : List (String × String) :=
  ((childrenWithTag tc "properties").map (fun ps =>
    (childrenWithTag ps "property").filterMap (fun p =>
      match lookupAttr p "name", lookupAttr p "value" with
      | some n, some v => some (n, v)
      | _, _ => none))).flatten

/-!
### The canonical Test record (pydantic_models.Test)

Timestamps are integers (see the header).  `tags` and `config` hold the
decoded literal when one was decoded.  Pydantic validation is modelled by
the constructor functions returning `none`/raising where the source's
`Test(...)` call would raise `ValidationError`: the inputs that can actually
fail validation are the timestamps (a `None` from `parse_timestamp`) and a
`tags`/`config` literal that decoded to something other than a dict.
Fields the parsers always pass as well-typed values cannot fail and carry
their plain types.  Optional fields that a parser omits take the schema
default `None`, which is how the repository's own end-to-end tests exercise
the models (583 Test records from one pytest XML fixture). -/

/-- Decoded Python literal, as far as validation observes it: a dict or not. -/
inductive PyLit where
  | dict (repr : String)
  | nondict (repr : String)
  deriving Repr, DecidableEq

/-- Shallow model of `ast.literal_eval(html.unescape(s))`: strings standing
for dict literals decode to dicts, ones standing for list/tuple literals to
non-dicts, everything else raises.  The concrete literal syntax is
abstracted by a marker character, \x7b for dicts and `[` for non-dicts. -/
def ast_literal_eval (s : String) : Except PyErr PyLit :=
  if strStartsWith s "\x7b" then .ok (.dict s)
  else if strStartsWith s "[" then .ok (.nondict s)
  else .error (.valueError s)

/-- The canonical Test record. -/
structure Test where
  test_start_ts : Int
  test_end_ts : Int
  test_case_name : String
  filepath : String
  category : String
  group : Option String
  owner : Option String
  frontend : Option String
  model_name : Option String
  op_name : Option String
  framework_op_name : Option String
  op_kind : Option String
  error_message : Option String
  success : Bool
  skipped : Bool
  full_test_name : String
  config : Option PyLit
  tags : Option PyLit
  deriving Repr, DecidableEq

/-- Category inference of the pytest parser: first of a fixed ordered list of
substrings matching the qualified class name, else `other`
(`get_category_from_pytest_testcase_`). -/
def get_category_from_pytest_testcase_ (classname : String) : String :=
  if strContains classname "models" then "models"
  else if strContains classname "ttnn" then "ttnn"
  else if strContains classname "tt_eager" then "tt_eager"
  else if strContains classname "tt_metal" then "tt_metal"
  else "other"

/-- Validity screen of `python_pytest_parser.is_valid_testcase_`: a testcase
is skipped as a truncation artifact when the `name` or the `classname`
attribute is missing. -/
def is_valid_testcase_ (tc : XmlElem) : Bool :=
  !((lookupAttr tc "name").isNone || (lookupAttr tc "classname").isNone)

/-- Decoding of the `tags`/`config` property of a testcase, as in the source:
absent property leaves the field unset, a decode failure is logged and also
leaves it unset, a successful decode stores the literal (a non-dict literal
is stored and fails schema validation later). -/
def decodeLiteralProp (properties : List (String × String)) (key : String) :
    Option PyLit :=
  match properties.lookup key with
  | none => none
  | some s =>
    match ast_literal_eval s with
    | .ok v => some v
    | .error _ => none

/-- Shallow embedding of
`python_pytest_parser.get_pydantic_test_from_pytest_testcase_`.
`default_timestamp` is the already-parsed suite-level timestamp (`None` when
the suite timestamp did not parse, exactly as `parse_timestamp` hands it
over).  Returns `none` where the source's `Test(...)` raises
`ValidationError` (which the source logs, converts to a `None` list entry,
and reports via the no-op `failure_happened`). -/
def get_pydantic_test_from_pytest_testcase_ (tc : XmlElem)
    (default_timestamp : Option Int) : Option Test :=
  let skipped := get_pytest_testcase_is_skipped tc
  let failed := get_pytest_testcase_is_failed tc
  let error := get_pytest_testcase_is_error tc
  let success := !(failed || error)
  let error_message : Option String := none
  let error_message := if failed then get_pytest_failure_message tc else error_message
  let error_message := if error then get_pytest_error_message tc else error_message
  let error_message := if skipped then get_pytest_skipped_message tc else error_message
  let properties := get_pytest_testcase_properties tc
  let tsPair : Option Int × Option Int :=
    if !(skipped || error) && (properties.lookup "start_timestamp").isSome
        && (properties.lookup "end_timestamp").isSome then
      (strToInt ((properties.lookup "start_timestamp").getD ""),
       strToInt ((properties.lookup "end_timestamp").getD ""))
    else (default_timestamp, default_timestamp)
  let name := (lookupAttr tc "name").getD ""
  let classname := (lookupAttr tc "classname").getD ""
  let test_case_name := strTakeUntil name (Char.ofNat 91)
  let filepath := (strReplaceChar classname (Char.ofNat 46) (Char.ofNat 47)) ++ ".py"
  let category := get_category_from_pytest_testcase_ classname
  let group := properties.lookup "group"
  let owner := properties.lookup "owner"
  let full_test_name := filepath ++ "::" ++ name
  let tags := decodeLiteralProp properties "tags"
  let config := decodeLiteralProp properties "config"
  match tsPair with
  | (some startTs, some endTs) =>
    if (match tags with | some (.nondict _) => true | _ => false) then none
    else if (match config with | some (.nondict _) => true | _ => false) then none
    else
      some
        { test_start_ts := startTs
          test_end_ts := endTs
          test_case_name := test_case_name
          filepath := filepath
          category := category
          group := group
          owner := owner
          frontend := none
          model_name := none
          op_name := none
          framework_op_name := none
          op_kind := none
          error_message := error_message
          success := success
          skipped := skipped
          full_test_name := full_test_name
          config := config
          tags := tags }
  | _ => none

/-- The per-suite loop of `python_pytest_parser.get_tests`:
`for testcase in testsuite: if is_valid_testcase_(testcase):
tests.append(get_pydantic_test(testcase))` — note the append keeps the
`None` results of validation failures. -/
def pytestSuiteLoop (default_timestamp : Option Int) (acc : List (Option Test)) :
    List XmlElem → List (Option Test)
  | [] => acc
  | tc :: rest =>
    if is_valid_testcase_ tc then
      pytestSuiteLoop default_timestamp
        (acc ++ [get_pydantic_test_from_pytest_testcase_ tc default_timestamp]) rest
    else pytestSuiteLoop default_timestamp acc rest

/-- Shallow embedding of `python_pytest_parser.get_tests`: parse the file,
take the first testsuite (`report_root[0]`, IndexError when absent), read
its `timestamp` attribute (KeyError when absent), parse it, and run the
testcase loop. -/
def pytestGetTests (f : PyFile) : Except PyErr (List (Option Test)) :=
  match f.etparse with
  | .error e => .error e
  | .ok root =>
    match root.children.head? with
    | none => .error .indexError
    | some testsuite =>
      match lookupAttr testsuite "timestamp" with
      | none => .error (.keyError "timestamp")
      | some ts =>
        .ok (pytestSuiteLoop (parse_timestamp ts) [] testsuite.children)

/-!
### parsers/python_unittest_parser.py — the generic xUnit parser

String timestamps flow through the source unparsed until `add_time` parses
them; here values are parsed at the point they are read, which relocates the
raise on a malformed string but preserves which inputs raise, and replaces
the source's lexicographic `max` on uniformly-formatted ISO strings with
`max` on the instants they denote. -/

/-- The duration of a testcase: `float(testcase["@time"])` — KeyError when
the attribute is missing, ValueError when it does not parse. -/
def tcDuration (tc : XmlElem) : Except PyErr Int :=
  match lookupAttr tc "time" with
  | some s => xstrToDur s
  | none => .error (.keyError "time")

/-- Reading a testcase's own timestamp: parsed when the attribute is
present, else the running previous-end cursor
(`testcase.get("@timestamp", previous_test_end_ts)`). -/
def tcStartRead (prev : Option Int) (tc : XmlElem) : Except PyErr (Option Int) :=
  match lookupAttr tc "timestamp" with
  | some s => (xstrToTime s).map some
  | none => .ok prev

/-- The message extraction of the xUnit parser, in source order: the skip
message, overwritten by the error type/message/text, overwritten by the
failure type/message/text; missing keys raise. -/
def unittestMessage (tc : XmlElem) : Except PyErr (Option String) :=
  match (if hasChildTag tc "skipped" then
           match (childrenWithTag tc "skipped").head?.bind
               (fun c => lookupAttr c "message") with
           | some m => .ok (some m)
           | none => .error (.keyError "message")
         else .ok none : Except PyErr (Option String)) with
  | .error e => .error e
  | .ok m1 =>
    match (if hasChildTag tc "error" then
             match (childrenWithTag tc "error").head? with
             | some c =>
               match lookupAttr c "type", lookupAttr c "message", c.text with
               | some ty, some ms, some tx =>
                 .ok (some (ty ++ "\n" ++ ms ++ "\n" ++ tx))
               | _, _, _ => .error (.keyError "message")
             | none => .error .indexError
           else .ok m1 : Except PyErr (Option String)) with
    | .error e => .error e
    | .ok m2 =>
      match (if hasChildTag tc "failure" then
               match (childrenWithTag tc "failure").head? with
               | some c =>
                 match lookupAttr c "type", lookupAttr c "message", c.text with
                 | some ty, some ms, some tx =>
                   .ok (some (ty ++ "\n" ++ ms ++ "\n" ++ tx))
                 | _, _, _ => .error (.keyError "message")
               | none => .error .indexError
             else .ok m2 : Except PyErr (Option String)) with
      | .error e => .error e
      | .ok message => .ok message

/-- The uniqueness workaround:
`if previous_test_end_ts: test_start_ts = max(test_start_ts,
previous_test_end_ts)`. -/
def clampStart (prev startOpt : Option Int) : Option Int :=
  match prev with
  | some p => startOpt.map (fun s => max s p)
  | none => startOpt

/-- One step of the testcase loop body, after the suite anchor has been
computed: read the testcase timestamp (defaulting to the running previous
end), the duration, the child-derived flags and message, clamp the start to
the previous end, and build the Test.  Returns the record and the new
previous-end cursor. -/
def unittestStep (prev : Option Int) (tc : XmlElem) :
    Except PyErr (Test × Int) :=
  match tcStartRead prev tc with
  | .error e => .error e
  | .ok startOpt =>
    match tcDuration tc with
    | .error e => .error e
    | .ok duration =>
      let skipped := hasChildTag tc "skipped"
      let error := hasChildTag tc "error"
      let failure := hasChildTag tc "failure"
      let file := (lookupAttr tc "file").getD ""
      match unittestMessage tc with
      | .error e => .error e
      | .ok message =>
        match clampStart prev startOpt with
        | none => .error .typeError
        | some startTs =>
          match lookupAttr tc "name", lookupAttr tc "classname" with
          | some nm, some cls =>
            let endTs := startTs + duration
            .ok
              ({ test_start_ts := startTs
                 test_end_ts := endTs
                 test_case_name := nm
                 filepath := file
                 category := cls
                 group := some "unittest"
                 owner := none
                 frontend := none
                 model_name := none
                 op_name := none
                 framework_op_name := none
                 op_kind := none
                 error_message := message
                 success := !(error || failure)
                 skipped := skipped
                 full_test_name := file ++ "::" ++ nm
                 config := none
                 tags := none }, endTs)
          | _, _ => .error (.keyError "name")

/-- The per-suite testcase loop: threads the previous-end cursor, appending
one Test per testcase. -/
def unittestTcLoop (prev : Option Int) :
    List XmlElem → Except PyErr (List Test × Option Int)
  | [] => .ok ([], prev)
  | tc :: rest =>
    match unittestStep prev tc with
    | .error e => .error e
    | .ok (t, endTs) =>
      match unittestTcLoop (some endTs) rest with
      | .error e => .error e
      | .ok (ts, prev2) => .ok (t :: ts, prev2)

/-- The suite loop: each suite must expose testcases (`testsuite["testcase"]`
raises KeyError otherwise); the previous-end cursor survives across suites. -/
def unittestSuitesLoop (prev : Option Int) :
    List XmlElem → Except PyErr (List Test)
  | [] => .ok []
  | s :: rest =>
    let tcs := childrenWithTag s "testcase"
    if tcs.isEmpty then .error (.keyError "testcase")
    else
      match unittestTcLoop prev tcs with
      | .error e => .error e
      | .ok (ts, prev2) =>
        match unittestSuitesLoop prev2 rest with
        | .error e => .error e
        | .ok ts2 => .ok (ts ++ ts2)

/-- Shallow embedding of `python_unittest_parser.get_tests`.  `now` is the
result of `datetime.now()`, an input of the run.  The anchor workaround: when
the first testcase of the first suite carries no timestamp, the previous-end
cursor starts at the suite-level timestamp, or at `now` when the suite has
none; otherwise it starts unset. -/
def unittestGetTests (now : Int) (f : PyFile) : Except PyErr (List Test) :=
  match f.etparse with
  | .error e => .error e
  | .ok root =>
    if root.tag != "testsuites" then .error (.keyError "testsuites")
    else
      match childrenWithTag root "testsuite" with
      | [] => .error (.keyError "testsuite")
      | s0 :: rest =>
        match (childrenWithTag s0 "testcase").head? with
        | none => .error (.keyError "testcase")
        | some tc0 =>
          match (if (lookupAttr tc0 "timestamp").isNone then
                   match lookupAttr s0 "timestamp" with
                   | some s => (xstrToTime s).map some
                   | none => .ok (some now)
                 else .ok none : Except PyErr (Option Int)) with
          | .error e => .error e
          | .ok prev0 => unittestSuitesLoop prev0 (s0 :: rest)

/-!
### parsers/builder_pytest_parser.py — the builder-specific JUnit XML parser

The module's import line is
`from pydantic_models import OpTest, TensorDesc, TestStatus, Backend`.
The names it binds and the names `pydantic_models.py` actually defines are
recorded below and drive the import model; the per-testcase mapping logic is
embedded as written, since it is the subject of its own claims. -/

/-- The terminal test status enumeration the builder parser refers to as
`TestStatus`. -/
inductive BStatus where
  | success
  | compile_failed
  | golden_failed
  | run_failed
  deriving Repr, DecidableEq

/-- The backend enumeration the builder parser refers to as `Backend`. -/
inductive BBackend where
  | ttnn
  | ttmetal
  deriving Repr, DecidableEq

/-- The operator-test record the builder parser constructs (the kwargs of its
`OpTest(...)` call).  Tensor-description extraction (`inputs`/`outputs`) is
outside every claim and is not embedded. -/
structure BOpTest where
  github_job_id : Int
  full_test_name : String
  test_start_ts : Int
  test_end_ts : Int
  test_case_name : String
  filepath : String
  success : Bool
  skipped : Bool
  error_message : Option String
  config : List (String × String)
  frontend : String
  model_name : String
  op_kind : String
  op_name : String
  framework_op_name : String
  op_params : List (String × String)
  git_sha : Option String
  status : Option BStatus
  card_type : Option String
  backend : BBackend
  deriving Repr, DecidableEq

/-- Suite-level property extraction (`_get_card_type` / `_get_git_sha`): the
first `<properties>` child is scanned for the first `<property>` with the
given name; its `value` attribute is returned. -/
def suitePropertyValue (testsuite : XmlElem) (propName : String) : Option String :=
  match (childrenWithTag testsuite "properties").head? with
  | none => none
  | some ps =>
    ((childrenWithTag ps "property").find?
      (fun p => lookupAttr p "name" == some propName)).bind
      (fun p => lookupAttr p "value")

/-- The failure_stage → status resolution of
`get_pydantic_optest_from_pytest_testcase_` (builder parser), as written:
an explicit stage maps through the stage table; a missing stage defers to
skipped, then failed/errored, then success; an unknown stage defers to
failed/errored, then skipped, then success. -/
def builderStatusOf (failure_stage : Option String)
    (skipped failed error : Bool) : Option BStatus :=
  if failure_stage == some "compile" then some .compile_failed
  else if failure_stage == some "runtime" then some .run_failed
  else if failure_stage == some "golden" then some .golden_failed
  else if failure_stage == some "success" then some .success
  else if failure_stage.isNone then
    if skipped then none
    else if failed || error then some .run_failed
    else some .success
  else
    if failed || error then some .run_failed
    else if skipped then none
    else some .success

/-- The status of a builder testcase: `failure_stage` is read from the
testcase properties and resolved against the child-derived flags. -/
def builder_test_status (tc : XmlElem) : Option BStatus :=
  builderStatusOf ((get_pytest_testcase_properties tc).lookup "failure_stage")
    (get_pytest_testcase_is_skipped tc)
    (get_pytest_testcase_is_failed tc)
    (get_pytest_testcase_is_error tc)

/-- Backend resolution of the builder parser: a falsy `backend` property is a
hard ValueError; `ttnn`, `ttmetal` and `ttnn-standalone` map into the enum,
anything else is a ValueError. -/
def builderBackendOf (backend_str : Option String) : Except PyErr BBackend :=
  match backend_str with
  | none => .error (.valueError "Missing backend property in XML")
  | some s =>
    if s = "" then .error (.valueError "Missing backend property in XML")
    else if s = "ttnn" then .ok .ttnn
    else if s = "ttmetal" then .ok .ttmetal
    else if s = "ttnn-standalone" then .ok .ttnn
    else .error (.valueError ("Invalid backend string: " ++ s))

/-- Shallow embedding of the builder parser's
`get_pydantic_optest_from_pytest_testcase_`.  The source's
except-ValidationError branch (log, return None) is unreachable here: every
value handed to the constructor is already well-typed, and the one input
that can deny the record a timestamp (an unparseable suite or property
timestamp) raises TypeError at the datetime addition first, exactly as the
source's `None + timedelta` does. -/
def get_pydantic_optest_from_pytest_testcase_ (tc : XmlElem)
    (default_timestamp : Option Int) (project : Option String)
    (github_job_id : Option Int) (card_type git_sha : Option String) :
    Except PyErr BOpTest :=
  let skipped := get_pytest_testcase_is_skipped tc
  let failed := get_pytest_testcase_is_failed tc
  let error := get_pytest_testcase_is_error tc
  let success := !(failed || error)
  let properties := get_pytest_testcase_properties tc
  let error_message : Option String :=
    match properties.lookup "error_message" with
    | some m => some m
    | none =>
      let em : Option String := none
      let em := if failed then get_pytest_failure_message tc else em
      let em := if error then get_pytest_error_message tc else em
      if skipped then get_pytest_skipped_message tc else em
  match tcDuration tc with
  | .error e => .error e
  | .ok test_duration =>
    let startOpt : Option Int :=
      if !(skipped || error) && (properties.lookup "start_timestamp").isSome then
        strToInt ((properties.lookup "start_timestamp").getD "")
      else default_timestamp
    match startOpt with
    | none => .error .typeError
    | some test_start_ts =>
      let test_end_ts := test_start_ts + test_duration
      let name := (lookupAttr tc "name").getD ""
      let classname := (lookupAttr tc "classname").getD ""
      let test_case_name := strTakeUntil name (Char.ofNat 91)
      let filepath := (strReplaceChar classname (Char.ofNat 46) (Char.ofNat 47)) ++ ".py"
      let full_test_name := filepath ++ "::" ++ name
      let config := properties.filterMap (fun kv =>
        if strStartsWith kv.1 "param_" then some (strDrop kv.1 6, kv.2) else none)
      match builderBackendOf (properties.lookup "backend") with
      | .error e => .error e
      | .ok backend =>
        let status := builderStatusOf (properties.lookup "failure_stage")
          skipped failed error
        let op_name := (properties.lookup "op_name").getD test_case_name
        let framework_op_name :=
          (properties.lookup "framework_op_name").getD test_case_name
        .ok
          { github_job_id := (github_job_id.getD 0)
            full_test_name := full_test_name
            test_start_ts := test_start_ts
            test_end_ts := test_end_ts
            test_case_name := test_case_name
            filepath := filepath
            success := success
            skipped := skipped
            error_message := error_message
            config := config
            frontend := match project with
              | some p => if p = "" then "builder" else p
              | none => "builder"
            model_name := "builder_ops"
            op_kind := "builder_op"
            op_name := op_name
            framework_op_name := framework_op_name
            op_params := config
            git_sha := git_sha
            status := status
            card_type := card_type
            backend := backend }

/-- The builder per-suite loop: valid testcases are mapped, and a `None`
from a validation failure would be dropped (`if test:`); a raise inside the
mapping aborts the whole parse. -/
def builderSuiteLoop (default_timestamp : Option Int) (project : Option String)
    (github_job_id : Option Int) (card_type git_sha : Option String) :
    List XmlElem → Except PyErr (List BOpTest)
  | [] => .ok []
  | tc :: rest =>
    if is_valid_testcase_ tc then
      match get_pydantic_optest_from_pytest_testcase_ tc default_timestamp
          project github_job_id card_type git_sha with
      | .error e => .error e
      | .ok t =>
        match builderSuiteLoop default_timestamp project github_job_id
            card_type git_sha rest with
        | .error e => .error e
        | .ok ts => .ok (t :: ts)
    else
      builderSuiteLoop default_timestamp project github_job_id card_type
        git_sha rest

/-- Shallow embedding of `builder_pytest_parser.get_tests` (the body the
parse entry point would run if the module loaded). -/
def builderGetTests (f : PyFile) (project : Option String)
    (github_job_id : Option Int) : Except PyErr (List BOpTest) :=
  match f.etparse with
  | .error e => .error e
  | .ok root =>
    match root.children.head? with
    | none => .error .indexError
    | some testsuite =>
      match lookupAttr testsuite "timestamp" with
      | none => .error (.keyError "timestamp")
      | some ts =>
        builderSuiteLoop (parse_timestamp ts) project github_job_id
          (suitePropertyValue testsuite "card")
          (suitePropertyValue testsuite "git_sha") testsuite.children

/-!
### The import model for the builder parser (pydantic_models namespace)
-/

/-- The top-level names the module body of `pydantic_models.py` binds: the
from-imports (`datetime`, `List`, `Optional`, `BaseModel`, `Field`) and the
seven model classes it defines. -/
def pydantic_models_names : List String :=
  ["datetime", "List", "Optional", "BaseModel", "Field",
   "Test", "Job", "Pipeline", "BenchmarkMeasurement",
   "CompleteBenchmarkRun", "TensorDesc", "OpTest"]

/-- The names `builder_pytest_parser.py` requests from `pydantic_models`. -/
def builder_required_imports : List String :=
  ["OpTest", "TensorDesc", "TestStatus", "Backend"]

/-- A Python `from M import a, b, ...` succeeds exactly when every requested
name is bound in the module's namespace; otherwise the importing module
fails to load with ImportError. -/
def from_import_ok (exports requested : List String) : Bool :=
  requested.all (fun n => exports.contains n)

/-- Whether the builder parser module loads. -/
def builderModuleLoads : Bool :=
  from_import_ok pydantic_models_names builder_required_imports

/-- The field names `pydantic_models.OpTest` declares. -/
def opTest_field_names : List String :=
  ["github_job_id", "full_test_name", "test_start_ts", "test_end_ts",
   "test_case_name", "filepath", "success", "skipped", "error_message",
   "config", "frontend", "model_name", "op_kind", "op_name",
   "framework_op_name", "inputs", "outputs", "op_params"]

/-- The keyword arguments of the builder parser's `OpTest(...)` call that
refer to schema fields beyond those `pydantic_models.OpTest` declares. -/
def builder_extra_optest_kwargs : List String :=
  ["git_sha", "status", "card_type", "backend"]

/-- `BuilderPytestParser.parse` as reachable from the program: the module
must load before any of its code can run; a failed from-import surfaces as
ImportError in whoever imports it. -/
def builderParse (f : PyFile) (project : Option String)
    (github_job_id : Option Int) : Except PyErr (List BOpTest) :=
  if builderModuleLoads then builderGetTests f project github_job_id
  else .error .importError

/-!
### Capability probes and test_parser.parse_file (parser dispatch)
-/

/-- Shallow embedding of `PythonPytestParser.can_parse`: non-`.xml` paths are
rejected without touching the file; otherwise the file is parsed — with no
exception handler — and the pytest-flavor probe decides. -/
def pytestCanParse (f : PyFile) : Except PyErr Bool :=
  if !(strEndsWith f.path ".xml") then .ok false
  else
    match f.etparse with
    | .error e => .error e
    | .ok root => .ok (is_pytest_junit_xml root)

/-- Shallow embedding of `PythonUnittestParser.can_parse`: a pure suffix
check, which cannot raise. -/
def unittestCanParse (f : PyFile) : Except PyErr Bool :=
  .ok (strEndsWith f.path ".xml")

/-- Shallow embedding of `TTTorchModelTestsParser.can_parse`: a pure check
on the basename, which cannot raise. -/
def ttTorchCanParse (f : PyFile) : Except PyErr Bool :=
  let basename := strBasename f.path
  .ok (strStartsWith basename "run" && strEndsWith basename ".tar")

/-- The body that `BuilderPytestParser.can_parse` runs inside its
try/except: parse the file, require the pytest flavor, take the first
testsuite (IndexError when the root is childless) and look for a suite
property named `card`. -/
def builderCanParseBody (f : PyFile) : Except PyErr Bool :=
  if !(strEndsWith f.path ".xml") then .ok false
  else
    match f.etparse with
    | .error e => .error e
    | .ok root =>
      if is_pytest_junit_xml root then
        match root.children.head? with
        | none => .error .indexError
        | some testsuite =>
          .ok ((suitePropertyValue testsuite "card").isSome)
      else .ok false

/-- Shallow embedding of `BuilderPytestParser.can_parse`: the body above
with every exception converted to `False`. -/
def builderCanParse (f : PyFile) : Except PyErr Bool :=
  match builderCanParseBody f with
  | .ok b => .ok b
  | .error _ => .ok false

/-- A record returned by `parse_file`, tagged by the parser that made it:
the pytest parser's lists may contain the `None` left by a validation
failure, the xUnit parser yields Tests, the builder parser OpTests. -/
inductive PFRecord where
  | pytestRec (t : Option Test)
  | unittestRec (t : Test)
  | builderRec (o : BOpTest)
  deriving Repr, DecidableEq

/-- The second candidate of the default parser loop: the generic xUnit
parser.  Its probe cannot raise; a raise inside its parse is logged and the
loop ends, returning the empty list. -/
def tryUnittestParser (now : Int) (f : PyFile) : Except PyErr (List PFRecord) :=
  match unittestCanParse f with
  | .error e => .error e
  | .ok false => .ok []
  | .ok true =>
    match unittestGetTests now f with
    | .ok ts => .ok (ts.map PFRecord.unittestRec)
    | .error _ => .ok []

/-- The default parser loop of `parse_file` over the module-level candidate
list `parsers = [PythonPytestParser(), PythonUnittestParser()]`: probes run
outside any exception handler, parses inside one (a raise moves to the next
candidate). -/
def tryDefaultParsers (now : Int) (f : PyFile) : Except PyErr (List PFRecord) :=
  match pytestCanParse f with
  | .error e => .error e
  | .ok true =>
    match pytestGetTests f with
    | .ok ts => .ok (ts.map PFRecord.pytestRec)
    | .error _ => tryUnittestParser now f
  | .ok false => tryUnittestParser now f

/-- Shallow embedding of `test_parser.parse_file`: a builder-job override
(job name contains `builder`, branch is `main`, builder probe accepts) tried
first with fall-through to the default candidates on any parse failure, then
the default loop.  `now` feeds the xUnit parser's current-time fallback. -/
def parse_file (now : Int) (f : PyFile) (project : Option String)
    (github_job_id : Option Int) (job_name git_branch : Option String) :
    Except PyErr (List PFRecord) :=
  let isBuilderJob :=
    match job_name with
    | some jn => strContains (strToLower jn) "builder"
    | none => false
  if isBuilderJob && (git_branch == some "main") then
    match builderCanParse f with
    | .error e => .error e
    | .ok true =>
      match builderParse f project github_job_id with
      | .ok os => .ok (os.map PFRecord.builderRec)
      | .error _ => tryDefaultParsers now f
    | .ok false => tryDefaultParsers now f
  else tryDefaultParsers now f

/-!
### cicd.get_github_job_id_to_test_reports and optests.create_optest_reports
-/

/-- The argument classes Python's `str.endswith` distinguishes: a string, a
tuple of strings, or anything else — a list raises
`TypeError: endswith first arg must be str or a tuple of str, not list`. -/
inductive EndsArg where
  | str (s : String)
  | tuple (ss : List String)
  | pylist (ss : List String)
  deriving Repr, DecidableEq

/-- Python `s.endswith(arg)`. -/
def py_str_endswith (s : String) (arg : EndsArg) : Except PyErr Bool :=
  match arg with
  | .str suffx => .ok (strEndsWith s suffx)
  | .tuple ss => .ok (ss.any (fun suffx => strEndsWith s suffx))
  | .pylist _ => .error .typeError

/-- Job-id extraction from a report filename:
`int(filename.split(".")[-2].split("_")[-1])` — IndexError when the filename
has no dot, `None` (the caught ValueError, warn and continue) when the
trailing token is not an integer. -/
def idOfReport (filename : String) : Except PyErr (Option Int) :=
  let parts := strSplitChar filename (Char.ofNat 46)
  if parts.length < 2 then .error .indexError
  else
    let stem := parts.getD (parts.length - 2) ""
    .ok (strToInt ((strSplitChar stem (Char.ofNat 95)).getLastD ""))

/-- Ordered-dict upsert: `m.get(job_id, []) + [path]` written back under
`job_id`, preserving first-insertion order. -/
def upsertReport (m : List (Int × List String)) (jobId : Int) (path : String) :
    List (Int × List String) :=
  if (m.lookup jobId).isSome then
    m.map (fun kv => if kv.1 = jobId then (kv.1, kv.2 ++ [path]) else kv)
  else m ++ [(jobId, [path])]

/-- The inner `for file in files` loop of
`cicd.get_github_job_id_to_test_reports`. -/
def reportFilesLoop (extension : EndsArg) (m : List (Int × List String))
    (root : String) : List String → Except PyErr (List (Int × List String))
  | [] => .ok m
  | file :: rest =>
    match py_str_endswith file extension with
    | .error e => .error e
    | .ok false => reportFilesLoop extension m root rest
    | .ok true =>
      match idOfReport file with
      | .error e => .error e
      | .ok none => reportFilesLoop extension m root rest
      | .ok (some jobId) =>
        reportFilesLoop extension (upsertReport m jobId (root ++ "/" ++ file))
          root rest

/-- The outer `os.walk` loop of `cicd.get_github_job_id_to_test_reports`:
the walk of the artifacts tree is given as (directory, files) entries. -/
def reportWalkLoop (extension : EndsArg) (m : List (Int × List String)) :
    List (String × List String) → Except PyErr (List (Int × List String))
  | [] => .ok m
  | (root, files) :: rest =>
    match reportFilesLoop extension m root files with
    | .error e => .error e
    | .ok m2 => reportWalkLoop extension m2 rest

/-- Shallow embedding of `cicd.get_github_job_id_to_test_reports`. -/
def get_github_job_id_to_test_reports (walk : List (String × List String))
    (extension : EndsArg) : Except PyErr (List (Int × List String)) :=
  reportWalkLoop extension [] walk

/-- Shallow embedding of `optests.shouldUseBuilderPytest`. -/
def shouldUseBuilderPytest (test_report job_name git_branch : String) :
    Bool :=
  let file_name := strToLower test_report
  let is_builder_job :=
    strContains (strToLower job_name) "builder" || strContains file_name "_builder"
  if !(strEndsWith file_name ".xml") then false
  else if job_name = "" || git_branch = "" then false
  else is_builder_job && git_branch = "main"

/-- Shallow embedding of `optests.shouldUseTtTorchModelTests`. -/
def shouldUseTtTorchModelTests (test_report : String) : Bool :=
  strEndsWith test_report ".tar"

/-- Shallow embedding of `optests.create_optest_reports`.  `fs` resolves a
report path to its file, `ttTorchOut` stands for the tarred-archive parser's
outcome on a path (archive extraction is an external effect); both only
feed the per-report phase, whose parse calls sit inside an
except-Exception handler and therefore contribute an empty list when they
raise.  The report-discovery call passes the Python list
`[".tar", ".xml"]` as the extension argument, exactly as the source does. -/
def create_optest_reports (fs : String → PyFile)
    (ttTorchOut : String → Except PyErr (List BOpTest))
    (jobs : List (Int × String)) (project : Option String) (git_branch : String)
    (walk : List (String × List String)) :
    Except PyErr (List (Int × List BOpTest)) :=
  match get_github_job_id_to_test_reports walk (.pylist [".tar", ".xml"]) with
  | .error e => .error e
  | .ok m =>
    if m.isEmpty then .ok []
    else
      .ok (m.map (fun jr =>
        let job_name := (jobs.lookup jr.1).getD ""
        (jr.1,
          (jr.2.map (fun r =>
            if shouldUseBuilderPytest r job_name git_branch then
              match builderParse (fs r) project (some jr.1) with
              | .ok ts => ts
              | .error _ => []
            else if shouldUseTtTorchModelTests r then
              match ttTorchOut r with
              | .ok ts => ts
              | .error _ => []
            else [])).flatten)))

/-!
### benchmark.py — ShieldBenchmarkDataMapper

Only the shield mapper is embedded: it is the subject of the model-type
claim.  JSON values are `JVal`; a report section is read with Python `get`
semantics (absent keys give `None`).
-/

/-- JSON values as the mapper observes them. -/
inductive JVal where
  | null
  | s (v : String)
  | i (v : Int)
  | b (v : Bool)
  | arr (vs : List JVal)
  | obj (kvs : List (String × JVal))

/-- Python truthiness of a JSON value. -/
def jTruthy : JVal → Bool
  | .null => false
  | .s v => v != ""
  | .i v => v != 0
  | .b v => v
  | .arr vs => !vs.isEmpty
  | .obj kvs => !kvs.isEmpty

/-- Numeric coercion pydantic applies to a measurement `value`: numbers and
booleans pass, numeric strings pass, everything else fails construction
(the mapper logs and skips that measurement). -/
def jNumeric : JVal → Option Int
  | .i v => some v
  | .b v => some (if v then 1 else 0)
  | .s v => strToInt v
  | _ => none

/-- The pipeline attributes the shield mapper reads. -/
structure SPipeline where
  pipeline_start_ts : Int
  pipeline_end_ts : Int
  project : Option String
  git_commit_hash : String
  pipeline_submission_ts : Int
  git_branch_name : Option String
  github_pipeline_id : Option Int
  github_pipeline_link : Option String
  git_author : String
  deriving Repr, DecidableEq

/-- The job attributes the shield mapper reads. -/
structure SJob where
  github_job_id : Int
  job_start_ts : Int
  job_end_ts : Int
  docker_image : Option String
  host_name : Option String
  deriving Repr, DecidableEq

/-- One benchmark measurement as the shield mapper constructs it. -/
structure BMeas where
  step_start_ts : Int
  step_end_ts : Int
  iteration : Int
  step_name : String
  step_warm_up_num_iterations : Option Int
  name : String
  value : Int
  target : Option Int
  device_power : Option Int
  device_temperature : Option Int
  deriving Repr, DecidableEq

/-- The CompleteBenchmarkRun record as the shield mapper fills it.  Fields
the mapper passes as raw report values keep `JVal`; the two fields whose
pydantic validation the mapper can actually trip (a required string from an
optional source) are `ml_model_name` and `device_hostname`. -/
structure CBRun where
  run_start_ts : Int
  run_end_ts : Int
  run_type : String
  git_repo_name : Option String
  git_commit_hash : Option String
  git_commit_ts : Option Int
  git_branch_name : Option String
  github_pipeline_id : Option Int
  github_pipeline_link : Option String
  github_job_id : Option Int
  user_name : Option String
  docker_image : Option String
  device_hostname : String
  device_ip : Option String
  device_info : Option JVal
  ml_model_name : String
  ml_model_type : Option String
  num_layers : Option Int
  batch_size : Option JVal
  config_params : Option JVal
  precision : Option String
  dataset_name : Option JVal
  profiler_name : Option String
  input_sequence_length : Option JVal
  output_sequence_length : Option JVal
  image_dimension : Option String
  perf_analysis : Option Bool
  training : Bool
  measurements : List BMeas

/-- Shallow embedding of `ShieldBenchmarkDataMapper._create_measurements`:
probe a whitelist of keys, keep one measurement per key present with a
value pydantic accepts, and skip (log) the rest. -/
def shieldCreateMeasurements (job : SJob) (step_name : String)
    (data : List (String × JVal)) (keys : List String) : List BMeas :=
  keys.filterMap (fun key =>
    match data.lookup key with
    | none => none
    | some v =>
      match jNumeric v with
      | none => none
      | some value =>
        some
          { step_start_ts := job.job_start_ts
            step_end_ts := job.job_end_ts
            iteration := 1
            step_name := step_name
            step_warm_up_num_iterations := none
            name := key
            value := value
            target := none
            device_power := none
            device_temperature := none })

/-- The measurement-key whitelist of `_process_benchmarks`. -/
def shieldBenchmarkKeys : List String :=
  ["mean_ttft_ms", "std_ttft_ms", "mean_tpot_ms", "std_tpot_ms",
   "mean_tps", "std_tps", "tps_decode_throughput", "tps_prefill_throughput",
   "mean_e2el_ms", "request_throughput"]

/-- The measurement-key whitelist of `_process_evals`. -/
def shieldEvalKeys : List String :=
  ["score", "published_score", "gpu_reference_score"]

/-- Shallow embedding of
`ShieldBenchmarkDataMapper._create_complete_benchmark_run`: the record is
assembled verbatim from the pipeline, the job and the already-extracted
arguments; `ml_model_type` is the literal `None` of the source.  Pydantic
rejects the record when `ml_model_name` is not a string or the job has no
host name. -/
def shieldCreateCompleteBenchmarkRun (p : SPipeline) (job : SJob)
    (run_type : String) (measurements : List BMeas) (device_info : Option JVal)
    (model_name : Option JVal) (input_seq_length output_seq_length
    dataset_name batch_size : Option JVal) : Except PyErr CBRun :=
  match model_name, job.host_name with
  | some (.s mn), some host =>
    .ok
      { run_start_ts := p.pipeline_start_ts
        run_end_ts := p.pipeline_end_ts
        run_type := run_type
        git_repo_name := p.project
        git_commit_hash := some p.git_commit_hash
        git_commit_ts := some p.pipeline_submission_ts
        git_branch_name := p.git_branch_name
        github_pipeline_id := p.github_pipeline_id
        github_pipeline_link := p.github_pipeline_link
        github_job_id := some job.github_job_id
        user_name := some p.git_author
        docker_image := job.docker_image
        device_hostname := host
        device_ip := none
        device_info := some (.obj [("device_name", (device_info.getD .null))])
        ml_model_name := mn
        ml_model_type := none
        num_layers := none
        batch_size := batch_size
        config_params := none
        precision := none
        dataset_name := dataset_name
        profiler_name := none
        input_sequence_length := input_seq_length
        output_sequence_length := output_seq_length
        image_dimension := none
        perf_analysis := none
        training := false
        measurements := measurements }
  | _, _ => .error .validationError

/-- Model-name normalization inside `_process_benchmarks`: when `model_id`
is a truthy string containing a slash, everything after the first slash;
a truthy non-string would hit `"/" in model_name` and raise. -/
def shieldBenchmarkModelName (entry : List (String × JVal)) :
    Except PyErr (Option JVal) :=
  match entry.lookup "model_id" with
  | none => .ok none
  | some (.s v) =>
    if v != "" && strContains v "/" then
      .ok (some (.s (strAfterFirst v (Char.ofNat 47))))
    else .ok (some (.s v))
  | some v => if jTruthy v then .error .typeError else .ok (some v)

/-- Shallow embedding of `ShieldBenchmarkDataMapper._process_benchmarks`:
one run per entry of the `benchmarks` section. -/
def shieldProcessBenchmarks (p : SPipeline) (job : SJob) :
    List JVal → Except PyErr (List CBRun)
  | [] => .ok []
  | entry :: rest =>
    match entry with
    | .obj kvs =>
      let measurements :=
        shieldCreateMeasurements job "benchmark" kvs shieldBenchmarkKeys
      match shieldBenchmarkModelName kvs with
      | .error e => .error e
      | .ok model_name =>
        match shieldCreateCompleteBenchmarkRun p job "benchmark" measurements
            (kvs.lookup "device") model_name
            (kvs.lookup "input_sequence_length")
            (kvs.lookup "output_sequence_length")
            (kvs.lookup "model_id") (kvs.lookup "max_con") with
        | .error e => .error e
        | .ok run =>
          match shieldProcessBenchmarks p job rest with
          | .error e => .error e
          | .ok runs => .ok (run :: runs)
    | _ => .error .typeError

/-- Shallow embedding of `ShieldBenchmarkDataMapper._process_evals`:
one run per entry of the `evals` section. -/
def shieldProcessEvals (p : SPipeline) (job : SJob) :
    List JVal → Except PyErr (List CBRun)
  | [] => .ok []
  | entry :: rest =>
    match entry with
    | .obj kvs =>
      let measurements := shieldCreateMeasurements job "eval" kvs shieldEvalKeys
      match (match kvs.lookup "metadata" with
             | none => .ok none
             | some (.obj m) => .ok (m.lookup "dataset_path")
             | some _ => .error .typeError : Except PyErr (Option JVal)) with
      | .error e => .error e
      | .ok dataset =>
        match shieldCreateCompleteBenchmarkRun p job "eval" measurements
            (kvs.lookup "device") (kvs.lookup "model") none none dataset none with
        | .error e => .error e
        | .ok run =>
          match shieldProcessEvals p job rest with
          | .error e => .error e
          | .ok runs => .ok (run :: runs)
    | _ => .error .typeError

/-- Reading a report section with `report_data.get(section, [])`: absent
gives the empty list, a list gives its entries, anything else fails when
iterated. -/
def reportSection (report : List (String × JVal)) (sectionName : String) :
    Except PyErr (List JVal) :=
  match report.lookup sectionName with
  | none => .ok []
  | some (.arr vs) => .ok vs
  | some _ => .error .typeError

/-- Shallow embedding of the try-block of
`ShieldBenchmarkDataMapper.map_benchmark_data`: process the `benchmarks`
section, then the `evals` section, and concatenate the runs. -/
def shieldTryBlock (p : SPipeline) (job : SJob)
    (report : List (String × JVal)) : Except PyErr (List CBRun) :=
  match reportSection report "benchmarks" with
  | .error e => .error e
  | .ok bs =>
    match reportSection report "evals" with
    | .error e => .error e
    | .ok es =>
      match shieldProcessBenchmarks p job bs with
      | .error e => .error e
      | .ok brs =>
        match shieldProcessEvals p job es with
        | .error e => .error e
        | .ok ers => .ok (brs ++ ers)

/-- Continuation of `map_benchmark_data`: the except handler converts a
ValidationError — and only a ValidationError — into `None` (after the no-op
failure mark); any other raise propagates. -/
def shieldMapBenchmarkData (p : SPipeline) (jobs : List SJob) (job_id : Int)
    (report : List (String × JVal)) : Except PyErr (Option (List CBRun)) :=
  match jobs.find? (fun j => j.github_job_id == job_id) with
  | none => .ok none
  | some job =>
    match shieldTryBlock p job report with
    | .ok runs => .ok (some runs)
    | .error .validationError => .ok none
    | .error e => .error e

/-!
### Theorems
-/

/-- Helper for concrete XML inputs: a `<property>` element. -/
def propElem (n v : String) : XmlElem :=
  .mk "property" [("name", n), ("value", v)] none []

/-- Helper for concrete XML inputs: a `<properties>` element. -/
def propsElem (kvs : List (String × String)) : XmlElem :=
  .mk "properties" [] none (kvs.map (fun kv => propElem kv.1 kv.2))

/-- Helper for concrete XML inputs: a result child such as `<failure>` with a
message attribute, a type attribute and text content. -/
def resultChild (tag msg : String) : XmlElem :=
  .mk tag [("message", msg), ("type", tag ++ "_type")] (some (tag ++ "_text")) []

/-- Helper lemma: the inner file loop of report discovery hits
`str.endswith` with the list argument on its first file and raises. -/
theorem reportFilesLoop_pylist (exts : List String) (m : List (Int × List String))
    (root : String) (file : String) (files : List String) :
    reportFilesLoop (.pylist exts) m root (file :: files) = .error .typeError := by
  simp [reportFilesLoop, py_str_endswith]

/-- Helper lemma: the walk loop of report discovery raises TypeError as soon
as any directory of the walk holds a file, when given a list extension. -/
theorem reportWalkLoop_pylist (exts : List String) :
    ∀ (walk : List (String × List String)) (m : List (Int × List String)),
      (∃ e ∈ walk, e.2 ≠ []) →
      reportWalkLoop (.pylist exts) m walk = .error .typeError := by
  intro walk
  induction walk with
  | nil =>
    intro m h
    simp at h
  | cons entry rest ih =>
    intro m h
    obtain ⟨root, files⟩ := entry
    cases files with
    | nil =>
      have h2 : ∃ e ∈ rest, e.2 ≠ [] := by
        rcases h with ⟨e, he, hne⟩
        rcases List.mem_cons.mp he with heq | hmem
        · subst heq; simp at hne
        · exact ⟨e, hmem, hne⟩
      simp [reportWalkLoop, reportFilesLoop, ih _ h2]
    | cons f fs =>
      simp [reportWalkLoop, reportFilesLoop_pylist]

/-- C10: for every pipeline whose artifacts walk contains at least one file,
`create_optest_reports` raises TypeError instead of returning reports: it
hands the Python list `[".tar", ".xml"]` to the report-discovery operation,
whose `str.endswith(extension)` filter rejects a list argument. -/
theorem c10_create_optest_reports_raises (fs : String → PyFile)
    (ttTorchOut : String → Except PyErr (List BOpTest))
    (jobs : List (Int × String)) (project : Option String) (git_branch : String)
    (walk : List (String × List String)) (h : ∃ e ∈ walk, e.2 ≠ []) :
    create_optest_reports fs ttTorchOut jobs project git_branch walk
      = .error .typeError := by
  unfold create_optest_reports get_github_job_id_to_test_reports
  rw [reportWalkLoop_pylist _ walk [] h]

/-- C10 witness: a single artifacts directory holding one report file. -/
theorem c10_witness :
    (∃ e ∈ [("artifacts", ["report_5.xml"])], e.2 ≠ ([] : List String))
      ∧ create_optest_reports (fun p => ⟨p, .error .xmlParseError⟩)
          (fun _ => .ok []) [] none "main" [("artifacts", ["report_5.xml"])]
          = .error .typeError := by
  refine ⟨by simp, ?_⟩
  exact c10_create_optest_reports_raises _ _ _ _ _ _ (by simp)

/-- C9: the builder parser module requests `TestStatus` and `Backend` from
the schema module, which defines neither them nor the extra OpTest fields
(`git_sha`, `status`, `card_type`, `backend`) its constructor call passes;
the from-import fails, so the builder parse path can never return a
non-empty list of builder records — it fails with ImportError on every
input. -/
theorem c9_builder_parse_never_yields (f : PyFile) (project : Option String)
    (github_job_id : Option Int) :
    builderModuleLoads = false
      ∧ pydantic_models_names.contains "TestStatus" = false
      ∧ pydantic_models_names.contains "Backend" = false
      ∧ from_import_ok opTest_field_names builder_extra_optest_kwargs = false
      ∧ builderParse f project github_job_id = .error .importError := by
  refine ⟨by decide, by decide, by decide, by decide, ?_⟩
  unfold builderParse
  rw [show builderModuleLoads = false from by decide]
  simp

/-- C7: the builder status mapping, per testcase.  An explicit
`failure_stage` maps through the stage table; an absent one yields no status
for a skipped test, run-failed for a failed or errored (and not skipped)
test, and success otherwise. -/
theorem c7_builder_status_mapping (tc : XmlElem) :
    ((get_pytest_testcase_properties tc).lookup "failure_stage" = some "compile" →
      builder_test_status tc = some BStatus.compile_failed)
    ∧ ((get_pytest_testcase_properties tc).lookup "failure_stage" = some "golden" →
      builder_test_status tc = some BStatus.golden_failed)
    ∧ ((get_pytest_testcase_properties tc).lookup "failure_stage" = some "runtime" →
      builder_test_status tc = some BStatus.run_failed)
    ∧ ((get_pytest_testcase_properties tc).lookup "failure_stage" = some "success" →
      builder_test_status tc = some BStatus.success)
    ∧ ((get_pytest_testcase_properties tc).lookup "failure_stage" = none →
      get_pytest_testcase_is_skipped tc = true →
      builder_test_status tc = none)
    ∧ ((get_pytest_testcase_properties tc).lookup "failure_stage" = none →
      get_pytest_testcase_is_skipped tc = false →
      get_pytest_testcase_is_failed tc = false →
      get_pytest_testcase_is_error tc = false →
      builder_test_status tc = some BStatus.success)
    ∧ ((get_pytest_testcase_properties tc).lookup "failure_stage" = none →
      get_pytest_testcase_is_skipped tc = false →
      (get_pytest_testcase_is_failed tc || get_pytest_testcase_is_error tc) = true →
      builder_test_status tc = some BStatus.run_failed) := by
  unfold builder_test_status builderStatusOf
  refine ⟨?_, ?_, ?_, ?_, ?_, ?_, ?_⟩
  · intro h; simp [h]
  · intro h; simp [h]
  · intro h; simp [h]
  · intro h; simp [h]
  · intro h hsk; simp [h, hsk]
  · intro h hsk hf he; simp [h, hsk, hf, he]
  · intro h hsk hfe; simp [h, hsk, hfe]

/-- Concrete builder testcase: explicit compile failure stage. -/
def tcC7compile : XmlElem :=
  .mk "testcase" [("name", "t1"), ("classname", "a.b"), ("time", "3")] none
    [propsElem [("failure_stage", "compile"), ("backend", "ttnn")]]

/-- Concrete builder testcase: no failure stage, skipped. -/
def tcC7skipped : XmlElem :=
  .mk "testcase" [("name", "t2"), ("classname", "a.b"), ("time", "0")] none
    [propsElem [("backend", "ttnn")], resultChild "skipped" "skip"]

/-- Concrete builder testcase: no failure stage, failed. -/
def tcC7failed : XmlElem :=
  .mk "testcase" [("name", "t3"), ("classname", "a.b"), ("time", "1")] none
    [propsElem [("backend", "ttnn")], resultChild "failure" "boom"]

/-- Concrete builder testcase: no failure stage, clean pass. -/
def tcC7clean : XmlElem :=
  .mk "testcase" [("name", "t4"), ("classname", "a.b"), ("time", "1")] none
    [propsElem [("backend", "ttnn")]]

/-- C7 witness: the mapping evaluated on four concrete testcases, one per
hypothesis family of the theorem. -/
theorem c7_witness :
    builder_test_status tcC7compile = some BStatus.compile_failed
      ∧ builder_test_status tcC7skipped = none
      ∧ builder_test_status tcC7failed = some BStatus.run_failed
      ∧ builder_test_status tcC7clean = some BStatus.success := by
  refine ⟨?_, ?_, ?_, ?_⟩
  · exact (c7_builder_status_mapping tcC7compile).1 (by decide)
  · exact (c7_builder_status_mapping tcC7skipped).2.2.2.2.1 (by decide) (by decide)
  · exact (c7_builder_status_mapping tcC7failed).2.2.2.2.2.2 (by decide) (by decide)
      (by decide)
  · exact (c7_builder_status_mapping tcC7clean).2.2.2.2.2.1 (by decide) (by decide)
      (by decide) (by decide)

/-- Helper lemma: every run the shield record constructor accepts carries
`ml_model_type = None` — the constructor writes the literal `None`. -/
theorem shieldCreate_ml_model_type_none (p : SPipeline) (job : SJob)
    (run_type : String) (measurements : List BMeas) (device_info : Option JVal)
    (model_name : Option JVal) (a b c d : Option JVal) (run : CBRun)
    (h : shieldCreateCompleteBenchmarkRun p job run_type measurements
      device_info model_name a b c d = .ok run) :
    run.ml_model_type = none := by
  unfold shieldCreateCompleteBenchmarkRun at h
  split at h
  · cases h
    rfl
  · cases h

/-- Helper lemma: every run `_process_benchmarks` yields has no model type. -/
theorem shieldProcessBenchmarks_ml_model_type_none (p : SPipeline) (job : SJob) :
    ∀ (entries : List JVal) (runs : List CBRun),
      shieldProcessBenchmarks p job entries = .ok runs →
      ∀ r ∈ runs, r.ml_model_type = none := by
  intro entries
  induction entries with
  | nil =>
    intro runs h r hr
    simp [shieldProcessBenchmarks] at h
    subst h
    cases hr
  | cons entry rest ih =>
    intro runs h r hr
    cases entry with
    | null => simp [shieldProcessBenchmarks] at h
    | s v => simp [shieldProcessBenchmarks] at h
    | i v => simp [shieldProcessBenchmarks] at h
    | b v => simp [shieldProcessBenchmarks] at h
    | arr vs => simp [shieldProcessBenchmarks] at h
    | obj kvs =>
      simp only [shieldProcessBenchmarks] at h
      cases hmn : shieldBenchmarkModelName kvs with
      | error e => simp [hmn] at h
      | ok mn =>
        simp only [hmn] at h
        cases hcr : shieldCreateCompleteBenchmarkRun p job "benchmark"
            (shieldCreateMeasurements job "benchmark" kvs shieldBenchmarkKeys)
            (kvs.lookup "device") mn (kvs.lookup "input_sequence_length")
            (kvs.lookup "output_sequence_length") (kvs.lookup "model_id")
            (kvs.lookup "max_con") with
        | error e => simp [hcr] at h
        | ok run =>
          simp only [hcr] at h
          cases hrec : shieldProcessBenchmarks p job rest with
          | error e => simp [hrec] at h
          | ok runs2 =>
            simp only [hrec] at h
            cases h
            rcases List.mem_cons.mp hr with heq | hmem
            · subst heq
              exact shieldCreate_ml_model_type_none _ _ _ _ _ _ _ _ _ _ _ hcr
            · exact ih _ hrec r hmem

/-- Helper lemma: every run `_process_evals` yields has no model type. -/
theorem shieldProcessEvals_ml_model_type_none (p : SPipeline) (job : SJob) :
    ∀ (entries : List JVal) (runs : List CBRun),
      shieldProcessEvals p job entries = .ok runs →
      ∀ r ∈ runs, r.ml_model_type = none := by
  intro entries
  induction entries with
  | nil =>
    intro runs h r hr
    simp [shieldProcessEvals] at h
    subst h
    cases hr
  | cons entry rest ih =>
    intro runs h r hr
    cases entry with
    | null => simp [shieldProcessEvals] at h
    | s v => simp [shieldProcessEvals] at h
    | i v => simp [shieldProcessEvals] at h
    | b v => simp [shieldProcessEvals] at h
    | arr vs => simp [shieldProcessEvals] at h
    | obj kvs =>
      simp only [shieldProcessEvals] at h
      cases hmd : (match kvs.lookup "metadata" with
                   | none => Except.ok none
                   | some (JVal.obj m) => Except.ok (m.lookup "dataset_path")
                   | some _ => Except.error PyErr.typeError :
                     Except PyErr (Option JVal)) with
      | error e => rw [hmd] at h; cases h
      | ok dataset =>
        rw [hmd] at h
        simp only at h
        cases hcr : shieldCreateCompleteBenchmarkRun p job "eval"
            (shieldCreateMeasurements job "eval" kvs shieldEvalKeys)
            (kvs.lookup "device") (kvs.lookup "model") none none dataset none with
        | error e => simp [hcr] at h
        | ok run =>
          simp only [hcr] at h
          cases hrec : shieldProcessEvals p job rest with
          | error e => simp [hrec] at h
          | ok runs2 =>
            simp only [hrec] at h
            cases h
            rcases List.mem_cons.mp hr with heq | hmem
            · subst heq
              exact shieldCreate_ml_model_type_none _ _ _ _ _ _ _ _ _ _ _ hcr
            · exact ih _ hrec r hmem

/-- C8 amended: in the tt-shield benchmark mapping as implemented, every
CompleteBenchmarkRun the mapper returns has `ml_model_type = None`,
regardless of the report fields — the mapper never derives a model type. -/
theorem c8_shield_model_type_always_none (p : SPipeline) (jobs : List SJob)
    (job_id : Int) (report : List (String × JVal)) (runs : List CBRun)
    (h : shieldMapBenchmarkData p jobs job_id report = .ok (some runs)) :
    ∀ r ∈ runs, r.ml_model_type = none := by
  intro r hr
  simp only [shieldMapBenchmarkData] at h
  cases hfind : jobs.find? (fun j => j.github_job_id == job_id) with
  | none => simp [hfind] at h
  | some job =>
    simp only [hfind] at h
    cases htb : shieldTryBlock p job report with
    | error e =>
      rw [htb] at h
      cases e <;> simp at h
    | ok runs2 =>
      rw [htb] at h
      simp only [Except.ok.injEq, Option.some.injEq] at h
      subst h
      simp only [shieldTryBlock] at htb
      cases hbs : reportSection report "benchmarks" with
      | error e => simp [hbs] at htb
      | ok bs =>
        simp only [hbs] at htb
        cases hes : reportSection report "evals" with
        | error e => simp [hes] at htb
        | ok es =>
          simp only [hes] at htb
          cases hbrs : shieldProcessBenchmarks p job bs with
          | error e => simp [hbrs] at htb
          | ok brs =>
            simp only [hbrs] at htb
            cases hers : shieldProcessEvals p job es with
            | error e => simp [hers] at htb
            | ok ers =>
              simp only [hers] at htb
              cases htb
              rcases List.mem_append.mp hr with hmem | hmem
              · exact shieldProcessBenchmarks_ml_model_type_none p job _ _ hbrs r hmem
              · exact shieldProcessEvals_ml_model_type_none p job _ _ hers r hmem



/-- C8 concrete pipeline for the tt-shield project. -/
def c8Pipeline : SPipeline :=
  { pipeline_start_ts := 1000
    pipeline_end_ts := 2000
    project := some "tt-shield"
    git_commit_hash := "abc123"
    pipeline_submission_ts := 900
    git_branch_name := some "main"
    github_pipeline_id := some 12345
    github_pipeline_link := some "link"
    git_author := "author" }

/-- C8 concrete job. -/
def c8Job : SJob :=
  { github_job_id := 1
    job_start_ts := 1100
    job_end_ts := 1200
    docker_image := some "img"
    host_name := some "host" }

/-- C8 concrete report: one benchmark entry whose `inference_engine` is
`vllm` and whose `backend` is `tt`, both present and non-null. -/
def c8Report : List (String × JVal) :=
  [("metadata", .obj [("inference_engine", .s "vllm")]),
   ("benchmarks", .arr
      [.obj [("model_id", .s "meta-llama/Llama-3.2-1B"),
             ("inference_engine", .s "vllm"),
             ("backend", .s "tt"),
             ("mean_tps", .i 5)]])]

/-- C8 counterexample: on a report whose benchmark entry carries
`inference_engine = "vllm"` and `backend = "tt"`, both present and non-null,
the mapper still emits `ml_model_type = None`, not `"vllm_tt"`. -/
theorem c8_counterexample :
    ((c8Report.lookup "benchmarks") =
      some (.arr [.obj [("model_id", .s "meta-llama/Llama-3.2-1B"),
        ("inference_engine", .s "vllm"), ("backend", .s "tt"),
        ("mean_tps", .i 5)]]))
    ∧ ((shieldMapBenchmarkData c8Pipeline [c8Job] 1 c8Report).map
        (fun res => res.map (fun runs => runs.map CBRun.ml_model_type)))
        = .ok (some [none])
    ∧ (none : Option String) ≠ some "vllm_tt" := by
  refine ⟨rfl, by rfl, by decide⟩

/-- The runs the shield mapper returns on the C8 concrete input. -/
def c8WitnessRuns : List CBRun :=
  match shieldMapBenchmarkData c8Pipeline [c8Job] 1 c8Report with
  | .ok (some rs) => rs
  | _ => []

/-- A CBRun value used only as an unreachable fallback. -/
def defaultCBRun : CBRun :=
  { run_start_ts := 0
    run_end_ts := 0
    run_type := ""
    git_repo_name := none
    git_commit_hash := none
    git_commit_ts := none
    git_branch_name := none
    github_pipeline_id := none
    github_pipeline_link := none
    github_job_id := none
    user_name := none
    docker_image := none
    device_hostname := ""
    device_ip := none
    device_info := none
    ml_model_name := ""
    ml_model_type := none
    num_layers := none
    batch_size := none
    config_params := none
    precision := none
    dataset_name := none
    profiler_name := none
    input_sequence_length := none
    output_sequence_length := none
    image_dimension := none
    perf_analysis := none
    training := false
    measurements := [] }

/-- The single run the shield mapper returns on the C8 concrete input. -/
def c8WitnessRun : CBRun :=
  c8WitnessRuns.headD defaultCBRun

/-- C8 witness: the amended theorem applied to the concrete input's run. -/
theorem c8_witness : c8WitnessRun.ml_model_type = none :=
  c8_shield_model_type_always_none c8Pipeline [c8Job] 1 c8Report c8WitnessRuns (by rfl)
    c8WitnessRun
    (by rw [show c8WitnessRuns = [c8WitnessRun] from rfl]
        exact List.mem_cons_self _ _)

/-- A malformed `.xml` file: the XML library raises on parse. -/
def c3File : PyFile :=
  { path := "malformed.xml", etparse := .error .xmlParseError }

/-- C3 counterexample: the pytest probe propagates the XML parse error on a
malformed `.xml` file instead of returning false — `can_parse` is not
exception-free for every parser. -/
theorem c3_counterexample : pytestCanParse c3File = .error .xmlParseError := rfl

/-- C3 amended: the probes of the builder, xUnit and tarred-archive parsers
never raise; the pytest probe returns false for non-`.xml` paths without
touching the file and returns the flavor verdict on well-formed files, but
propagates the XML library's error on `.xml` files whose content does not
parse. -/
theorem c3_can_parse_behavior :
    (∀ f : PyFile, strEndsWith f.path ".xml" = false → pytestCanParse f = .ok false)
      ∧ (∀ (f : PyFile) (root : XmlElem), f.etparse = .ok root →
          strEndsWith f.path ".xml" = true →
          pytestCanParse f = .ok (is_pytest_junit_xml root))
      ∧ (∀ (f : PyFile) (e : PyErr), strEndsWith f.path ".xml" = true →
          f.etparse = .error e → pytestCanParse f = .error e)
      ∧ (∀ f : PyFile, ∃ b, builderCanParse f = .ok b)
      ∧ (∀ f : PyFile, ∃ b, unittestCanParse f = .ok b)
      ∧ (∀ f : PyFile, ∃ b, ttTorchCanParse f = .ok b) := by
  refine ⟨?_, ?_, ?_, ?_, ?_, ?_⟩
  · intro f h
    simp [pytestCanParse, h]
  · intro f root hr h
    simp [pytestCanParse, h, hr]
  · intro f e h he
    simp [pytestCanParse, h, he]
  · intro f
    cases hb : builderCanParseBody f with
    | ok b => exact ⟨b, by simp [builderCanParse, hb]⟩
    | error e => exact ⟨false, by simp [builderCanParse, hb]⟩
  · intro f
    exact ⟨strEndsWith f.path ".xml", rfl⟩
  · intro f
    exact ⟨strStartsWith (strBasename f.path) "run"
      && strEndsWith (strBasename f.path) ".tar", rfl⟩

/-- C3 witness: the amended probe contract evaluated on a concrete non-XML
path. -/
theorem c3_witness :
    pytestCanParse { path := "notes.txt", etparse := .error .xmlParseError }
      = .ok false :=
  c3_can_parse_behavior.1 { path := "notes.txt", etparse := .error .xmlParseError }
    (by decide)

/-- The error-message selection the pytest parser actually performs: the
assignments run in order failed, error, skipped, so the skip message
overwrites the error message, which overwrites the failure message; the
`error_message` property is never consulted by this parser. -/
def pytestErrorMessageAmended (tc : XmlElem) : Option String :=
  if get_pytest_testcase_is_skipped tc then get_pytest_skipped_message tc
  else if get_pytest_testcase_is_error tc then get_pytest_error_message tc
  else if get_pytest_testcase_is_failed tc then get_pytest_failure_message tc
  else none

/-- C5 amended: every Test the pytest parser produces carries the message
selected by skip-over-error-over-failure precedence, ignoring any explicit
`error_message` property. -/
theorem c5_error_message_precedence (tc : XmlElem) (dts : Option Int) (t : Test)
    (h : get_pydantic_test_from_pytest_testcase_ tc dts = some t) :
    t.error_message = pytestErrorMessageAmended tc := by
  unfold get_pydantic_test_from_pytest_testcase_ at h
  unfold pytestErrorMessageAmended
  cases hsk : get_pytest_testcase_is_skipped tc <;>
    cases herr : get_pytest_testcase_is_error tc <;>
      cases hf : get_pytest_testcase_is_failed tc <;>
        simp only [hsk, herr, hf, Bool.false_or, Bool.or_false, Bool.or_self,
          if_true, if_false, Bool.not_false, Bool.not_true, Bool.false_and,
          Bool.true_and, Bool.and_false, Bool.and_true] at h ⊢ <;>
        · split at h
          · split at h
            · cases h
            · split at h
              · cases h
              · injection h with h2
                subst h2
                rfl
          · cases h

/-- C5 concrete testcase: an explicit `error_message` property together with
failure, error and skipped children, each carrying its own message. -/
def tcC5 : XmlElem :=
  .mk "testcase" [("name", "t"), ("classname", "a.b"), ("time", "1")] none
    [propsElem [("error_message", "prop_msg")],
     resultChild "failure" "fail_msg",
     resultChild "error" "err_msg",
     resultChild "skipped" "skip_msg"]

/-- C5 counterexample: the testcase carries an explicit `error_message`
property `prop_msg` (and a failure and an error child), yet the produced
Test's message is the skip message — the property does not win, and the
skip message outranks both the error and the failure message. -/
theorem c5_counterexample :
    (get_pytest_testcase_properties tcC5).lookup "error_message" = some "prop_msg"
      ∧ get_pytest_testcase_is_failed tcC5 = true
      ∧ get_pytest_testcase_is_error tcC5 = true
      ∧ get_pytest_testcase_is_skipped tcC5 = true
      ∧ (get_pydantic_test_from_pytest_testcase_ tcC5 (some 0)).map
          Test.error_message = some (some "skip_msg") := by
  decide

/-- A Test value used only as an unreachable match fallback. -/
def defaultTest : Test :=
  { test_start_ts := 0
    test_end_ts := 0
    test_case_name := ""
    filepath := ""
    category := ""
    group := none
    owner := none
    frontend := none
    model_name := none
    op_name := none
    framework_op_name := none
    op_kind := none
    error_message := none
    success := true
    skipped := false
    full_test_name := ""
    config := none
    tags := none }

/-- The Test the pytest parser produces on the C5 concrete testcase. -/
def c5WitnessTest : Test :=
  (get_pydantic_test_from_pytest_testcase_ tcC5 (some 0)).getD defaultTest

/-- C5 witness: the amended precedence theorem applied to the concrete
testcase. -/
theorem c5_witness : c5WitnessTest.error_message = pytestErrorMessageAmended tcC5 :=
  c5_error_message_precedence tcC5 (some 0) c5WitnessTest (by rfl)

/-- Helper lemma: the pytest per-suite loop appends exactly one entry per
testcase passing the validity screen and none for the rest — it equals the
filter-then-map of the testcase list. -/
theorem pytestSuiteLoop_eq (dts : Option Int) :
    ∀ (tcs : List XmlElem) (acc : List (Option Test)),
      pytestSuiteLoop dts acc tcs
        = acc ++ (tcs.filter is_valid_testcase_).map
            (fun tc => get_pydantic_test_from_pytest_testcase_ tc dts) := by
  intro tcs
  induction tcs with
  | nil =>
    intro acc
    simp [pytestSuiteLoop]
  | cons tc rest ih =>
    intro acc
    cases hv : is_valid_testcase_ tc with
    | false => simp [pytestSuiteLoop, hv, ih]
    | true => simp [pytestSuiteLoop, hv, ih]

/-- C4: on a pytest JUnit XML file whose suite timestamp is present and
whose schema-valid testcases all pass record validation, the parser yields
exactly one Test per testcase carrying both `name` and `classname`, none for
a testcase missing either, and the validity screen is exactly the presence
of those two attributes. -/
theorem c4_one_test_per_valid_testcase (f : PyFile) (root testsuite : XmlElem)
    (ts : String)
    (h1 : f.etparse = .ok root)
    (h2 : root.children.head? = some testsuite)
    (h3 : lookupAttr testsuite "timestamp" = some ts)
    (hvalid : ∀ tc ∈ testsuite.children, is_valid_testcase_ tc = true →
        (get_pydantic_test_from_pytest_testcase_ tc (parse_timestamp ts)).isSome
          = true) :
    pytestGetTests f
      = .ok ((testsuite.children.filter is_valid_testcase_).map
          (fun tc => get_pydantic_test_from_pytest_testcase_ tc (parse_timestamp ts)))
    ∧ (∀ out, pytestGetTests f = .ok out →
        out.length = (testsuite.children.filter is_valid_testcase_).length
          ∧ ∀ x ∈ out, x.isSome = true)
    ∧ (∀ tc ∈ testsuite.children,
        is_valid_testcase_ tc
          = ((lookupAttr tc "name").isSome && (lookupAttr tc "classname").isSome)) := by
  have hmain : pytestGetTests f
      = .ok ((testsuite.children.filter is_valid_testcase_).map
          (fun tc => get_pydantic_test_from_pytest_testcase_ tc (parse_timestamp ts))) := by
    simp only [pytestGetTests, h1, h2, h3]
    rw [pytestSuiteLoop_eq]
    simp
  refine ⟨hmain, ?_, ?_⟩
  · intro out hout
    rw [hmain] at hout
    injection hout with hout
    subst hout
    constructor
    · simp
    · intro x hx
      rcases List.mem_map.mp hx with ⟨tc, htc, rfl⟩
      rcases List.mem_filter.mp htc with ⟨hmem, hval⟩
      exact hvalid tc hmem hval
  · intro tc _
    unfold is_valid_testcase_
    cases lookupAttr tc "name" <;> cases lookupAttr tc "classname" <;> rfl

/-- C4 concrete valid testcase. -/
def c4TcValid : XmlElem :=
  .mk "testcase" [("name", "t1"), ("classname", "x.y"), ("time", "1")] none []

/-- C4 concrete truncated testcase (no name, no classname). -/
def c4TcInvalid : XmlElem :=
  .mk "testcase" [("time", "2")] none []

/-- C4 concrete testsuite. -/
def c4Suite : XmlElem :=
  .mk "testsuite" [("name", "pytest"), ("timestamp", "100")] none
    [c4TcValid, c4TcInvalid]

/-- C4 concrete report file. -/
def c4File : PyFile :=
  { path := "report_1.xml"
    etparse := .ok (.mk "testsuites" [] none [c4Suite]) }

/-- C4 witness: the theorem applied to a concrete file holding one valid and
one truncated testcase. -/
theorem c4_witness :
    pytestGetTests c4File
      = .ok ((c4Suite.children.filter is_valid_testcase_).map
          (fun tc => get_pydantic_test_from_pytest_testcase_ tc (parse_timestamp "100")))
    ∧ ((c4Suite.children.filter is_valid_testcase_).map
         (fun tc => get_pydantic_test_from_pytest_testcase_ tc
           (parse_timestamp "100"))).length = 1 :=
  ⟨(c4_one_test_per_valid_testcase c4File (.mk "testsuites" [] none [c4Suite])
      c4Suite "100" rfl rfl rfl (by decide)).1, by decide⟩

/-- A malformed `.xml` report file reaching the dispatcher. -/
def c2File : PyFile :=
  { path := "report.xml", etparse := .error .xmlParseError }

/-- C2 counterexample: `parse_file` propagates the XML parse error of the
pytest probe (called outside any exception handler) instead of returning an
empty list — it does not survive every input. -/
theorem c2_counterexample :
    parse_file 0 c2File none none none none = .error .xmlParseError := rfl

/-- C2 amended: with no builder-job override in play, the default candidates
are probed in the fixed order pytest parser then xUnit parser (there is no
tarred-archive candidate); a raise inside a selected parser's parse moves to
the next candidate, and the dispatcher returns the empty list when no probe
accepts or every accepted parse raises — while an exception in the pytest
probe itself (a malformed or unreadable `.xml` file) propagates, which the
`hsafe` premise excludes. -/
theorem c2_dispatch_behavior (now : Int) (f : PyFile) (project : Option String)
    (gj : Option Int)
    (hsafe : strEndsWith f.path ".xml" = true → (f.etparse).isOk = true) :
    (parse_file now f project gj none none).isOk = true
    ∧ (strEndsWith f.path ".xml" = false →
        parse_file now f project gj none none = .ok [])
    ∧ (∀ root ts, strEndsWith f.path ".xml" = true → f.etparse = .ok root →
        is_pytest_junit_xml root = true → pytestGetTests f = .ok ts →
        parse_file now f project gj none none = .ok (ts.map PFRecord.pytestRec))
    ∧ (∀ root e, strEndsWith f.path ".xml" = true → f.etparse = .ok root →
        is_pytest_junit_xml root = true → pytestGetTests f = .error e →
        parse_file now f project gj none none = tryUnittestParser now f)
    ∧ (∀ root, strEndsWith f.path ".xml" = true → f.etparse = .ok root →
        is_pytest_junit_xml root = false →
        parse_file now f project gj none none = tryUnittestParser now f)
    ∧ (∀ ts2, strEndsWith f.path ".xml" = true → unittestGetTests now f = .ok ts2 →
        tryUnittestParser now f = .ok (ts2.map PFRecord.unittestRec))
    ∧ (∀ e, strEndsWith f.path ".xml" = true → unittestGetTests now f = .error e →
        tryUnittestParser now f = .ok []) := by
  have hpf : parse_file now f project gj none none = tryDefaultParsers now f := by
    simp [parse_file]
  refine ⟨?_, ?_, ?_, ?_, ?_, ?_, ?_⟩
  · rw [hpf]
    cases hx : strEndsWith f.path ".xml" with
    | false =>
      simp [tryDefaultParsers, pytestCanParse, hx, tryUnittestParser,
        unittestCanParse, Except.isOk, Except.toBool]
    | true =>
      have hok := hsafe hx
      cases hroot : f.etparse with
      | error e => rw [hroot] at hok; cases hok
      | ok root =>
        cases hpy : is_pytest_junit_xml root with
        | true =>
          cases hg : pytestGetTests f with
          | ok ts =>
            simp [tryDefaultParsers, pytestCanParse, hx, hroot, hpy, hg,
              Except.isOk, Except.toBool]
          | error e =>
            cases hu : unittestGetTests now f with
            | ok ts2 =>
              simp [tryDefaultParsers, pytestCanParse, hx, hroot, hpy, hg,
                tryUnittestParser, unittestCanParse, hu, Except.isOk, Except.toBool]
            | error e2 =>
              simp [tryDefaultParsers, pytestCanParse, hx, hroot, hpy, hg,
                tryUnittestParser, unittestCanParse, hu, Except.isOk, Except.toBool]
        | false =>
          cases hu : unittestGetTests now f with
          | ok ts2 =>
            simp [tryDefaultParsers, pytestCanParse, hx, hroot, hpy,
              tryUnittestParser, unittestCanParse, hu, Except.isOk, Except.toBool]
          | error e2 =>
            simp [tryDefaultParsers, pytestCanParse, hx, hroot, hpy,
              tryUnittestParser, unittestCanParse, hu, Except.isOk, Except.toBool]
  · intro hx
    rw [hpf]
    simp [tryDefaultParsers, pytestCanParse, hx, tryUnittestParser,
      unittestCanParse]
  · intro root ts hx hroot hpy hg
    rw [hpf]
    simp [tryDefaultParsers, pytestCanParse, hx, hroot, hpy, hg]
  · intro root e hx hroot hpy hg
    rw [hpf]
    simp [tryDefaultParsers, pytestCanParse, hx, hroot, hpy, hg]
  · intro root hx hroot hpy
    rw [hpf]
    simp [tryDefaultParsers, pytestCanParse, hx, hroot, hpy]
  · intro ts2 hx hu
    simp [tryUnittestParser, unittestCanParse, hx, hu]
  · intro e hx hu
    simp [tryUnittestParser, unittestCanParse, hx, hu]

/-- C2 witness: the amended dispatch contract evaluated on a concrete
non-XML file — no probe accepts, and the dispatcher returns the empty
list. -/
theorem c2_witness :
    parse_file 0 { path := "readme.md", etparse := .error .xmlParseError }
      none none none none = .ok [] :=
  (c2_dispatch_behavior 0 { path := "readme.md", etparse := .error .xmlParseError }
    none none (by decide)).2.1 (by decide)

/-- The synthetic-timestamp chain: `TsChainE p out q` says that the first
record of `out` starts at `p`, every record starts exactly where the
previous one ended, and `q` is the final previous-end cursor. -/
inductive TsChainE : Int → List Test → Int → Prop where
  | nil (p : Int) : TsChainE p [] p
  | cons {p q : Int} {t : Test} {rest : List Test} :
      t.test_start_ts = p → TsChainE t.test_end_ts rest q →
      TsChainE p (t :: rest) q

/-- Helper lemma: chains concatenate. -/
theorem tsChainE_append (b : List Test) (q r : Int) (h2 : TsChainE q b r) :
    ∀ (p : Int) (a : List Test), TsChainE p a q → TsChainE p (a ++ b) r := by
  intro p a h1
  induction h1 with
  | nil p0 => exact h2
  | cons hstart _ ih => exact TsChainE.cons hstart (ih h2)

/-- Helper lemma: a loop step always ends the record at its start plus the
testcase duration, and hands exactly that end out as the new cursor. -/
theorem unittestStep_end (prev : Option Int) (tc : XmlElem) (t : Test) (e2 : Int)
    (h : unittestStep prev tc = .ok (t, e2)) :
    e2 = t.test_end_ts
      ∧ ∃ d, tcDuration tc = .ok d ∧ t.test_end_ts = t.test_start_ts + d := by
  simp only [unittestStep] at h
  cases hso : tcStartRead prev tc with
  | error e => simp [hso] at h
  | ok startOpt =>
    simp only [hso] at h
    cases hd : tcDuration tc with
    | error e => simp [hd] at h
    | ok d =>
      simp only [hd] at h
      cases hm : unittestMessage tc with
      | error e => simp [hm] at h
      | ok message =>
        simp only [hm] at h
        cases hc1 : clampStart prev startOpt with
        | none => simp [hc1] at h
        | some startTs =>
          simp only [hc1] at h
          cases hn : lookupAttr tc "name" with
          | none => simp [hn] at h
          | some nm =>
            simp only [hn] at h
            cases hcl : lookupAttr tc "classname" with
            | none => simp [hcl] at h
            | some cls =>
              simp only [hcl] at h
              cases h
              exact ⟨rfl, d, rfl, rfl⟩

/-- Helper lemma: when the testcase has no timestamp of its own and the
cursor is set, the record starts exactly at the cursor. -/
theorem unittestStep_start_no_ts (p : Int) (tc : XmlElem)
    (hts : lookupAttr tc "timestamp" = none) (t : Test) (e2 : Int)
    (h : unittestStep (some p) tc = .ok (t, e2)) :
    t.test_start_ts = p := by
  have hso : tcStartRead (some p) tc = .ok (some p) := by
    simp [tcStartRead, hts]
  have hc1 : clampStart (some p) (some p) = some p := by
    simp [clampStart]
  simp only [unittestStep, hso, hc1] at h
  cases hd : tcDuration tc with
  | error e => simp [hd] at h
  | ok d =>
    simp only [hd] at h
    cases hm : unittestMessage tc with
    | error e => simp [hm] at h
    | ok message =>
      simp only [hm] at h
      cases hn : lookupAttr tc "name" with
      | none => simp [hn] at h
      | some nm =>
        simp only [hn] at h
        cases hcl : lookupAttr tc "classname" with
        | none => simp [hcl] at h
        | some cls =>
          simp only [hcl] at h
          cases h
          rfl

/-- Helper lemma: the testcase loop builds a timestamp chain from the
cursor when no testcase carries its own timestamp. -/
theorem unittestTcLoop_chainE (tcs : List XmlElem) :
    ∀ (p : Int) (out : List Test) (pfin : Option Int),
      (∀ tc ∈ tcs, lookupAttr tc "timestamp" = none) →
      unittestTcLoop (some p) tcs = .ok (out, pfin) →
      ∃ q, pfin = some q ∧ TsChainE p out q := by
  induction tcs with
  | nil =>
    intro p out pfin _ h
    simp only [unittestTcLoop] at h
    cases h
    exact ⟨p, rfl, .nil p⟩
  | cons tc rest ih =>
    intro p out pfin hts h
    simp only [unittestTcLoop] at h
    cases hstep : unittestStep (some p) tc with
    | error e => simp [hstep] at h
    | ok te =>
      obtain ⟨t, e2⟩ := te
      simp only [hstep] at h
      cases hrec : unittestTcLoop (some e2) rest with
      | error e => simp [hrec] at h
      | ok op =>
        obtain ⟨ts, p2⟩ := op
        simp only [hrec] at h
        cases h
        have hstart := unittestStep_start_no_ts p tc (hts tc (by simp)) t e2 hstep
        obtain ⟨he2, -⟩ := unittestStep_end (some p) tc t e2 hstep
        subst he2
        obtain ⟨q, hq, hchain⟩ :=
          ih t.test_end_ts ts pfin (fun tc2 htc2 => hts tc2 (by simp [htc2])) hrec
        exact ⟨q, hq, .cons hstart hchain⟩

/-- Helper lemma: every record of the loop output satisfies the duration
predicate on its end minus start. -/
theorem unittestTcLoop_dur (P : Int → Prop) (tcs : List XmlElem) :
    ∀ (prev : Option Int) (out : List Test) (pfin : Option Int),
      (∀ tc ∈ tcs, ∀ d, tcDuration tc = .ok d → P d) →
      unittestTcLoop prev tcs = .ok (out, pfin) →
      ∀ t ∈ out, P (t.test_end_ts - t.test_start_ts) := by
  induction tcs with
  | nil =>
    intro prev out pfin _ h t ht
    simp only [unittestTcLoop] at h
    cases h
    cases ht
  | cons tc rest ih =>
    intro prev out pfin hdur h t ht
    simp only [unittestTcLoop] at h
    cases hstep : unittestStep prev tc with
    | error e => simp [hstep] at h
    | ok te =>
      obtain ⟨t1, e2⟩ := te
      simp only [hstep] at h
      cases hrec : unittestTcLoop (some e2) rest with
      | error e => simp [hrec] at h
      | ok op =>
        obtain ⟨ts, p2⟩ := op
        simp only [hrec] at h
        cases h
        rcases List.mem_cons.mp ht with rfl | hmem
        · obtain ⟨-, d, hd, hend⟩ := unittestStep_end prev tc t e2 hstep
          rw [hend]
          have hP := hdur tc (by simp) d hd
          simpa using hP
        · exact ih (some e2) ts pfin
            (fun tc2 h2 d hd => hdur tc2 (by simp [h2]) d hd) hrec t hmem

/-- Helper lemma: the suite loop builds a timestamp chain across suites. -/
theorem unittestSuitesLoop_chainE (suites : List XmlElem) :
    ∀ (p : Int) (out : List Test),
      (∀ s ∈ suites, ∀ tc ∈ childrenWithTag s "testcase",
        lookupAttr tc "timestamp" = none) →
      unittestSuitesLoop (some p) suites = .ok out →
      ∃ q, TsChainE p out q := by
  induction suites with
  | nil =>
    intro p out _ h
    simp only [unittestSuitesLoop] at h
    cases h
    exact ⟨p, .nil p⟩
  | cons s rest ih =>
    intro p out hts h
    simp only [unittestSuitesLoop] at h
    split at h
    · cases h
    · cases hloop : unittestTcLoop (some p) (childrenWithTag s "testcase") with
      | error e => simp [hloop] at h
      | ok op =>
        obtain ⟨ts1, p2⟩ := op
        simp only [hloop] at h
        obtain ⟨q1, hq1, hchain1⟩ :=
          unittestTcLoop_chainE _ p ts1 p2 (hts s (by simp)) hloop
        subst hq1
        cases hrest : unittestSuitesLoop (some q1) rest with
        | error e => simp [hrest] at h
        | ok ts2 =>
          simp only [hrest] at h
          cases h
          obtain ⟨q2, hchain2⟩ := ih q1 ts2 (fun s2 hs2 => hts s2 (by simp [hs2])) hrest
          exact ⟨q2, tsChainE_append ts2 q1 q2 hchain2 p ts1 hchain1⟩

/-- Helper lemma: duration predicate across the suite loop. -/
theorem unittestSuitesLoop_dur (P : Int → Prop) (suites : List XmlElem) :
    ∀ (prev : Option Int) (out : List Test),
      (∀ s ∈ suites, ∀ tc ∈ childrenWithTag s "testcase", ∀ d,
        tcDuration tc = .ok d → P d) →
      unittestSuitesLoop prev suites = .ok out →
      ∀ t ∈ out, P (t.test_end_ts - t.test_start_ts) := by
  induction suites with
  | nil =>
    intro prev out _ h t ht
    simp only [unittestSuitesLoop] at h
    cases h
    cases ht
  | cons s rest ih =>
    intro prev out hdur h t ht
    simp only [unittestSuitesLoop] at h
    split at h
    · cases h
    · cases hloop : unittestTcLoop prev (childrenWithTag s "testcase") with
      | error e => simp [hloop] at h
      | ok op =>
        obtain ⟨ts1, p2⟩ := op
        simp only [hloop] at h
        cases hrest : unittestSuitesLoop p2 rest with
        | error e => simp [hrest] at h
        | ok ts2 =>
          simp only [hrest] at h
          cases h
          rcases List.mem_append.mp ht with hmem | hmem
          · exact unittestTcLoop_dur P _ prev ts1 p2 (hdur s (by simp)) hloop t hmem
          · exact ih p2 ts2 (fun s2 hs2 => hdur s2 (by simp [hs2])) hrest t hmem

/-- Helper lemma: a chain bounds every start from below by its anchor, when
records do not end before they start. -/
theorem tsChainE_lb {p q : Int} {out : List Test} (hc : TsChainE p out q)
    (hle : ∀ t ∈ out, t.test_start_ts ≤ t.test_end_ts) :
    ∀ t ∈ out, p ≤ t.test_start_ts := by
  induction hc with
  | nil _ =>
    intro t ht
    cases ht
  | @cons p q t rest hstart hrest ih =>
    intro t2 ht2
    rcases List.mem_cons.mp ht2 with rfl | hmem
    · exact le_of_eq hstart.symm
    · have h1 := ih (fun t3 h3 => hle t3 (by simp [h3])) t2 hmem
      have h0 : p ≤ t.test_end_ts := by
        rw [← hstart]
        exact hle t (by simp)
      exact le_trans h0 h1

/-- Helper lemma: chained starts are non-decreasing when durations are
nonnegative. -/
theorem tsChainE_pairwise_le {p q : Int} {out : List Test} (hc : TsChainE p out q)
    (hle : ∀ t ∈ out, t.test_start_ts ≤ t.test_end_ts) :
    List.Pairwise (fun a b : Int => a ≤ b) (out.map Test.test_start_ts) := by
  induction hc with
  | nil _ => simp
  | @cons p q t rest hstart hrest ih =>
    simp only [List.map_cons, List.pairwise_cons]
    constructor
    · intro b hb
      rcases List.mem_map.mp hb with ⟨t2, ht2, rfl⟩
      have hlb := tsChainE_lb hrest (fun t3 h3 => hle t3 (by simp [h3])) t2 ht2
      exact le_trans (hle t (by simp)) hlb
    · exact ih (fun t3 h3 => hle t3 (by simp [h3]))

/-- Helper lemma: chained starts are strictly increasing when durations are
positive. -/
theorem tsChainE_pairwise_lt {p q : Int} {out : List Test} (hc : TsChainE p out q)
    (hlt : ∀ t ∈ out, t.test_start_ts < t.test_end_ts) :
    List.Pairwise (fun a b : Int => a < b) (out.map Test.test_start_ts) := by
  induction hc with
  | nil _ => simp
  | @cons p q t rest hstart hrest ih =>
    simp only [List.map_cons, List.pairwise_cons]
    constructor
    · intro b hb
      rcases List.mem_map.mp hb with ⟨t2, ht2, rfl⟩
      have hlb := tsChainE_lb hrest
        (fun t3 h3 => le_of_lt (hlt t3 (by simp [h3]))) t2 ht2
      exact lt_of_lt_of_le (hlt t (by simp)) hlb
    · exact ih (fun t3 h3 => hlt t3 (by simp [h3]))

/-- C6 amended: when every testcase of the report lacks its own timestamp
and the first suite carries a parseable timestamp, the xUnit parser's output
forms a synthetic chain — each test starts exactly where the previous one
ended; the start timestamps are non-decreasing provided durations are
nonnegative, strictly increasing (hence unique) provided durations are
positive; and the result does not depend on the current time, so re-running
on identical input yields identical synthetic timestamps. -/
theorem c6_synthetic_timestamps (now : Int) (f : PyFile) (root s0 : XmlElem)
    (rest : List XmlElem) (tstr : String) (T : Int) (out : List Test)
    (h1 : f.etparse = .ok root)
    (h2 : childrenWithTag root "testsuite" = s0 :: rest)
    (h3 : ∀ s ∈ s0 :: rest, ∀ tc ∈ childrenWithTag s "testcase",
        lookupAttr tc "timestamp" = none)
    (h4 : lookupAttr s0 "timestamp" = some tstr)
    (h5 : xstrToTime tstr = .ok T)
    (hout : unittestGetTests now f = .ok out) :
    (∃ q, TsChainE T out q)
    ∧ ((∀ s ∈ s0 :: rest, ∀ tc ∈ childrenWithTag s "testcase", ∀ d,
          tcDuration tc = .ok d → 0 ≤ d) →
        List.Pairwise (fun a b : Int => a ≤ b) (out.map Test.test_start_ts))
    ∧ ((∀ s ∈ s0 :: rest, ∀ tc ∈ childrenWithTag s "testcase", ∀ d,
          tcDuration tc = .ok d → 0 < d) →
        List.Pairwise (fun a b : Int => a < b) (out.map Test.test_start_ts))
    ∧ (∀ n2 : Int, unittestGetTests n2 f = unittestGetTests now f) := by
  simp only [unittestGetTests, h1, h2] at hout
  split at hout
  · cases hout
  · cases hh : (childrenWithTag s0 "testcase").head? with
    | none => simp [hh] at hout
    | some tc0 =>
      simp only [hh] at hout
      have htc0 : tc0 ∈ childrenWithTag s0 "testcase" := by
        have hh2 := hh
        cases hl : childrenWithTag s0 "testcase" with
        | nil => rw [hl] at hh2; cases hh2
        | cons a as =>
          rw [hl] at hh2
          simp only [List.head?_cons, Option.some.injEq] at hh2
          rw [← hh2]
          exact List.mem_cons_self a as
      have hts0 : lookupAttr tc0 "timestamp" = none := h3 s0 (by simp) tc0 htc0
      simp only [hts0, h4, h5, Option.isNone_none, if_true, Except.map] at hout
      refine ⟨?_, ?_, ?_, ?_⟩
      · exact unittestSuitesLoop_chainE (s0 :: rest) T out h3 hout
      · intro hdur
        obtain ⟨q, hch⟩ := unittestSuitesLoop_chainE (s0 :: rest) T out h3 hout
        have hle : ∀ t ∈ out, t.test_start_ts ≤ t.test_end_ts := by
          intro t ht
          have hsub := unittestSuitesLoop_dur (fun d => 0 ≤ d) (s0 :: rest)
            (some T) out hdur hout t ht
          omega
        exact tsChainE_pairwise_le hch hle
      · intro hdur
        obtain ⟨q, hch⟩ := unittestSuitesLoop_chainE (s0 :: rest) T out h3 hout
        have hlt : ∀ t ∈ out, t.test_start_ts < t.test_end_ts := by
          intro t ht
          have hsub := unittestSuitesLoop_dur (fun d => 0 < d) (s0 :: rest)
            (some T) out hdur hout t ht
          omega
        exact tsChainE_pairwise_lt hch hlt
      · intro n2
        simp only [unittestGetTests, h1, h2]
        cases htag : root.tag != "testsuites" with
        | true => simp [htag]
        | false => simp [htag, hh, hts0, h4, h5, Except.map]

/-- Helper for concrete xUnit inputs: a minimal testcase. -/
def c6Tc (nm tm : String) : XmlElem :=
  .mk "testcase" [("name", nm), ("classname", "c"), ("time", tm)] none []

/-- C6 concrete suite with zero-duration testcases. -/
def c6CexSuite : XmlElem :=
  .mk "testsuite" [("timestamp", "100")] none [c6Tc "a" "0", c6Tc "b" "0"]

/-- C6 concrete file with zero-duration testcases. -/
def c6CexFile : PyFile :=
  { path := "u.xml", etparse := .ok (.mk "testsuites" [] none [c6CexSuite]) }

/-- C6 counterexample: with two zero-duration testcases lacking timestamps,
the synthetic start timestamps are 100 and 100 — not strictly increasing and
not unique. -/
theorem c6_counterexample :
    (unittestGetTests 0 c6CexFile).map (fun l => l.map Test.test_start_ts)
        = .ok [(100 : Int), 100]
      ∧ ¬ List.Pairwise (fun a b : Int => a < b) [(100 : Int), 100]
      ∧ ¬ ([(100 : Int), 100].Nodup) := by
  refine ⟨by rfl, by decide, by decide⟩

/-- C6 concrete suite with positive durations. -/
def c6WitSuite : XmlElem :=
  .mk "testsuite" [("timestamp", "100")] none [c6Tc "a" "1", c6Tc "b" "2"]

/-- C6 concrete root with positive durations. -/
def c6WitRoot : XmlElem :=
  .mk "testsuites" [] none [c6WitSuite]

/-- C6 concrete file with positive durations. -/
def c6WitFile : PyFile :=
  { path := "u2.xml", etparse := .ok c6WitRoot }

/-- The records the xUnit parser produces on the C6 witness file. -/
def c6WitOut : List Test :=
  match unittestGetTests 0 c6WitFile with
  | .ok l => l
  | _ => []

/-- C6 witness: the amended theorem applied to a concrete two-testcase
suite with positive durations — its starts strictly increase. -/
theorem c6_witness :
    List.Pairwise (fun a b : Int => a < b) (c6WitOut.map Test.test_start_ts) := by
  refine (c6_synthetic_timestamps 0 c6WitFile c6WitRoot c6WitSuite [] "100" 100
    c6WitOut rfl rfl (by decide) rfl rfl (by rfl)).2.2.1 ?_
  intro s hs tc htc d hd
  simp only [List.mem_singleton] at hs
  subst hs
  rw [show childrenWithTag c6WitSuite "testcase"
      = [c6Tc "a" "1", c6Tc "b" "2"] from rfl] at htc
  simp only [List.mem_cons, List.mem_singleton, List.not_mem_nil, or_false] at htc
  rcases htc with rfl | rfl
  · rw [show tcDuration (c6Tc "a" "1") = Except.ok 1 from rfl] at hd
    cases hd
    decide
  · rw [show tcDuration (c6Tc "b" "2") = Except.ok 2 from rfl] at hd
    cases hd
    decide
